import Mathlib

/-!
# Asset management chaincode: ledger model and transfer protocol

A shallow embedding of `chaincode/smartcontract/smartcontract.go` together with
the three record types of `asset.go`, `user.go` and `transfer_request.go`.

Modelling conventions.

* The world state is a finite key/value list kept in key order; a value is the
  JSON object that `json.Marshal` produced, kept as its list of tagged fields.
  Keys of an object are compared exactly, which agrees with `encoding/json` on
  every object the contract writes (its tags are pairwise different, also up to
  letter case, and each occurs once per object).
* `GetState`, `PutState`, `DelState`, `GetStateByRange` and `SetEvent` are taken
  to succeed, and `GetClientIdentity().GetID()` to return the caller identity.
* `time.Now().Unix()` and `GetTxID()` are read from the transaction context.
* `uint64` is `Nat` with an explicit `% 2^64` at the one increment, `int64` is
  `Int`; a nil slice and an empty slice are both the empty list; a `string` is a
  sequence of Unicode characters, which the JSON encoding gives back unchanged.
* Every operation returns the world state as left by the writes it issued, the
  event it set and the error it returned; dereferencing the nil pointer that a
  failed `ReadAsset` returns is the error `nilDereference`.
-/

namespace Ams

/-! ## JSON objects -/

/-- The JSON values that occur in the records of the contract. -/
inductive JVal where
  | null
  | str (s : String)
  | num (n : Int)
  | strs (xs : List String)
  deriving DecidableEq, Repr

/-- A JSON object: its fields in the order written. -/
abbrev JObj := List (String × JVal)

/-- The value stored under a tag of the object, if the tag occurs. -/
def JObj.field : JObj → String → Option JVal
  | [], _ => none
  | (k, v) :: rest, tag => if k = tag then some v else JObj.field rest tag

/-- Decoding into a `string` field: an absent tag or `null` leaves the zero
value, any other non-string value is a type error (`none`). -/
def decodeString : Option JVal → Option String
  | none => some ""
  | some .null => some ""
  | some (.str s) => some s
  | some _ => none

/-- Decoding into a `uint64` field. -/
def decodeUint64 : Option JVal → Option Nat
  | none => some 0
  | some .null => some 0
  | some (.num n) => if 0 ≤ n ∧ n < 2 ^ 64 then some n.toNat else none
  | some _ => none

/-- Decoding into an `int64` field. -/
def decodeInt64 : Option JVal → Option Int
  | none => some 0
  | some .null => some 0
  | some (.num n) => if -(2 ^ 63) ≤ n ∧ n < 2 ^ 63 then some n else none
  | some _ => none

/-- Decoding into a `[]string` field. -/
def decodeStrings : Option JVal → Option (List String)
  | none => some []
  | some .null => some []
  | some (.strs xs) => some xs
  | some _ => none

/-! ## Records (`asset.go`, `user.go`, `transfer_request.go`) -/

/-- The `Asset` struct. -/
structure Asset where
  ID : String
  Name : String
  Owner : String
  MetaUrl : String
  Status : String
  Views : List String
  Sequence : Nat
  LastTxid : String
  UpdatedAt : Int
  UpdatedBy : String
  deriving DecidableEq, Repr

/-- The `User` struct. -/
structure User where
  ID : String
  WalletID : String
  Role : String
  Status : String
  Sequence : Nat
  UpdatedAt : Int
  deriving DecidableEq, Repr

/-- The `TransferRequest` struct. -/
structure TransferRequest where
  AssetID : String
  SellerID : String
  BuyerID : String
  Status : String
  deriving DecidableEq, Repr

/-- The object `json.Marshal` writes for an `Asset`, with the tags of `asset.go`. -/
def marshalAsset (a : Asset) : JObj :=
  [("id", .str a.ID), ("name", .str a.Name), ("owner", .str a.Owner),
   ("metaUrl", .str a.MetaUrl), ("status", .str a.Status), ("views", .strs a.Views),
   ("sequence", .num a.Sequence), ("lastTxid", .str a.LastTxid),
   ("updatedAt", .num a.UpdatedAt), ("updatedBy", .str a.UpdatedBy)]

/-- The object `json.Marshal` writes for a `User`, with the tags of `user.go`. -/
def marshalUser (u : User) : JObj :=
  [("id", .str u.ID), ("walletId", .str u.WalletID), ("role", .str u.Role),
   ("status", .str u.Status), ("sequence", .num u.Sequence),
   ("updatedAt", .num u.UpdatedAt)]

/-- The object `json.Marshal` writes for a `TransferRequest`, with the tags of
`transfer_request.go`. -/
def marshalTransferRequest (r : TransferRequest) : JObj :=
  [("assetId", .str r.AssetID), ("sellerId", .str r.SellerID),
   ("buyerId", .str r.BuyerID), ("status", .str r.Status)]

/-- The result of `json.Unmarshal(data, &asset)` on a fresh `Asset`: `none` when
`Unmarshal` reports an error. -/
def unmarshalAsset (o : JObj) : Option Asset := do
  let id ← decodeString (o.field "id")
  let name ← decodeString (o.field "name")
  let owner ← decodeString (o.field "owner")
  let metaUrl ← decodeString (o.field "metaUrl")
  let status ← decodeString (o.field "status")
  let views ← decodeStrings (o.field "views")
  let sequence ← decodeUint64 (o.field "sequence")
  let lastTxid ← decodeString (o.field "lastTxid")
  let updatedAt ← decodeInt64 (o.field "updatedAt")
  let updatedBy ← decodeString (o.field "updatedBy")
  pure { ID := id, Name := name, Owner := owner, MetaUrl := metaUrl, Status := status,
         Views := views, Sequence := sequence, LastTxid := lastTxid,
         UpdatedAt := updatedAt, UpdatedBy := updatedBy }

/-- The result of `json.Unmarshal(data, &user)` on a fresh `User`. -/
def unmarshalUser (o : JObj) : Option User := do
  let id ← decodeString (o.field "id")
  let walletId ← decodeString (o.field "walletId")
  let role ← decodeString (o.field "role")
  let status ← decodeString (o.field "status")
  let sequence ← decodeUint64 (o.field "sequence")
  let updatedAt ← decodeInt64 (o.field "updatedAt")
  pure { ID := id, WalletID := walletId, Role := role, Status := status,
         Sequence := sequence, UpdatedAt := updatedAt }

/-- The contents of `req` after `json.Unmarshal(transferJSON, &req)` on a fresh
`TransferRequest` whose returned error is discarded, as the three resolving
operations do: a field whose value has the wrong type keeps its zero value. -/
def unmarshalTransferRequest (o : JObj) : TransferRequest :=
  { AssetID := (decodeString (o.field "assetId")).getD "",
    SellerID := (decodeString (o.field "sellerId")).getD "",
    BuyerID := (decodeString (o.field "buyerId")).getD "",
    Status := (decodeString (o.field "status")).getD "" }

/-! ## World state -/

/-- The world state: key/value entries. -/
abbrev Store := List (String × JObj)

/-- The ledger read `GetState`: the value under a key, `none` when the key is absent. -/
def GetState : Store → String → Option JObj
  | [], _ => none
  | (k, v) :: rest, key => if k = key then some v else GetState rest key

/-- The ledger write `PutState`: replace the value under the key, or insert the entry at its
place in key order (the lexicographic order of the characters of the keys). -/
def PutState (key : String) (value : JObj) : Store → Store
  | [] => [(key, value)]
  | (k, v) :: rest =>
    if k = key then (key, value) :: rest
    else if key.data < k.data then (key, value) :: (k, v) :: rest
    else (k, v) :: PutState key value rest

/-- The ledger delete `DelState`: remove the key. -/
def DelState (key : String) (s : Store) : Store :=
  s.filter (fun kv => kv.1 ≠ key)

/-- The open range query `GetStateByRange("", "")`: every entry, in key order. -/
def GetStateByRange (s : Store) : List (String × JObj) := s

/-! ## Transaction context, events, errors -/

/-- What an invocation reads from its transaction context. -/
structure Ctx where
  clientID : String
  txID : String
  now : Int
  now_int64 : -(2 ^ 63) ≤ now ∧ now < 2 ^ 63

/-- The payload of an event: a marshalled record, or the raw bytes of a string. -/
inductive Payload where
  | json (o : JObj)
  | raw (s : String)
  deriving DecidableEq, Repr

/-- The event set by `SetEvent`. -/
structure Event where
  name : String
  payload : Payload
  deriving DecidableEq, Repr

/-- The errors the contract returns, one constructor per message of the source. -/
inductive ContractError where
  | userAlreadyExists (id : String)
  | userDoesNotExist (id : String)
  | assetAlreadyExists (id : String)
  | assetDoesNotExist (id : String)
  | unmarshalFailed
  | onlyOwnerCanUpdate
  | assetLockedCannotUpdate
  | onlyOwnerCanInitiate
  | assetAlreadyLocked
  | transferRequestNotFound
  | invalidTransferStatus
  | transferNotPending
  | onlySellerCanCancel
  | nilDereference
  deriving DecidableEq, Repr

/-- The error classes of the specification. -/
inductive ErrorKind where
  | NotFound
  | AlreadyExists
  | Forbidden
  | InvalidState
  | DecodeError
  | Crash
  deriving DecidableEq, Repr

/-- The class of each error. -/
def ContractError.kind : ContractError → ErrorKind
  | .userAlreadyExists _ => .AlreadyExists
  | .userDoesNotExist _ => .NotFound
  | .assetAlreadyExists _ => .AlreadyExists
  | .assetDoesNotExist _ => .NotFound
  | .unmarshalFailed => .DecodeError
  | .onlyOwnerCanUpdate => .Forbidden
  | .assetLockedCannotUpdate => .InvalidState
  | .onlyOwnerCanInitiate => .Forbidden
  | .assetAlreadyLocked => .InvalidState
  | .transferRequestNotFound => .NotFound
  | .invalidTransferStatus => .InvalidState
  | .transferNotPending => .InvalidState
  | .onlySellerCanCancel => .Forbidden
  | .nilDereference => .Crash

/-- What an invocation leaves behind: the world state after its writes, the
event it set, and the error it returned (`none` on success). -/
structure Outcome where
  store : Store
  event : Option Event
  error : Option ContractError
  deriving DecidableEq, Repr

/-- Return an error before any write. -/
def Outcome.fail (s : Store) (e : ContractError) : Outcome :=
  { store := s, event := none, error := some e }

/-- The key of the transfer request of an asset. -/
def transferKey (assetID : String) : String := "transfer_" ++ assetID

/-! ## The contract (`smartcontract.go`) -/

/-- The query `UserExists`: whether a record is stored under the id. -/
def UserExists (s : Store) (id : String) : Bool := (GetState s id).isSome

/-- The operation `CreateUser`; the `name` argument is not stored. -/
def CreateUser (ctx : Ctx) (id _name role : String) (s : Store) : Outcome :=
  if UserExists s id then Outcome.fail s (.userAlreadyExists id)
  else
    let clientIdentity := ctx.clientID
    let user : User :=
      { ID := id, WalletID := clientIdentity, Role := role, Status := "Active",
        Sequence := 1, UpdatedAt := ctx.now }
    let userJSON := marshalUser user
    { store := PutState id userJSON s, event := none, error := none }

/-- The query `ReadUser`. -/
def ReadUser (s : Store) (id : String) : Except ContractError User :=
  match GetState s id with
  | none => .error (.userDoesNotExist id)
  | some userJSON =>
    match unmarshalUser userJSON with
    | none => .error .unmarshalFailed
    | some user => .ok user

/-- The query `AssetExists`: whether a record is stored under the id. -/
def AssetExists (s : Store) (id : String) : Bool := (GetState s id).isSome

/-- The operation `CreateAsset`. -/
def CreateAsset (ctx : Ctx) (id name metaUrl : String) (views : List String)
    (s : Store) : Outcome :=
  if AssetExists s id then Outcome.fail s (.assetAlreadyExists id)
  else
    let owner := ctx.clientID
    let asset : Asset :=
      { ID := id, Name := name, Owner := owner, MetaUrl := metaUrl, Status := "Active",
        Views := views, Sequence := 1, LastTxid := ctx.txID, UpdatedAt := ctx.now,
        UpdatedBy := owner }
    let assetJSON := marshalAsset asset
    { store := PutState id assetJSON s,
      event := some ⟨"AssetCreated", .json assetJSON⟩, error := none }

/-- The query `ReadAsset`: the pointer it returns is nil exactly on an error. -/
def ReadAsset (s : Store) (id : String) : Except ContractError Asset :=
  match GetState s id with
  | none => .error (.assetDoesNotExist id)
  | some assetJSON =>
    match unmarshalAsset assetJSON with
    | none => .error .unmarshalFailed
    | some asset => .ok asset

/-- The operation `UpdateAsset`. -/
def UpdateAsset (ctx : Ctx) (id name metaUrl status : String) (views : List String)
    (s : Store) : Outcome :=
  match ReadAsset s id with
  | .error err => Outcome.fail s err
  | .ok asset =>
    let clientID := ctx.clientID
    if asset.Owner ≠ clientID then Outcome.fail s .onlyOwnerCanUpdate
    else if asset.Status = "Locked" then Outcome.fail s .assetLockedCannotUpdate
    else
      let asset : Asset :=
        { asset with Name := name, MetaUrl := metaUrl, Status := status, Views := views,
                     Sequence := (asset.Sequence + 1) % 2 ^ 64, LastTxid := ctx.txID,
                     UpdatedAt := ctx.now, UpdatedBy := clientID }
      let assetJSON := marshalAsset asset
      { store := PutState id assetJSON s,
        event := some ⟨"AssetUpdated", .json assetJSON⟩, error := none }

/-- The operation `DeleteAsset`. -/
def DeleteAsset (id : String) (s : Store) : Outcome :=
  if !AssetExists s id then Outcome.fail s (.assetDoesNotExist id)
  else
    { store := DelState id s, event := some ⟨"AssetDeleted", .raw id⟩, error := none }

/-- The operation `InitiateTransfer` (phase 1). -/
def InitiateTransfer (ctx : Ctx) (assetID buyerWalletID : String) (s : Store) : Outcome :=
  match ReadAsset s assetID with
  | .error err => Outcome.fail s err
  | .ok asset =>
    let clientID := ctx.clientID
    if asset.Owner ≠ clientID then Outcome.fail s .onlyOwnerCanInitiate
    else if asset.Status = "Locked" then Outcome.fail s .assetAlreadyLocked
    else
      let asset : Asset :=
        { asset with Status := "Locked", UpdatedBy := clientID, UpdatedAt := ctx.now }
      let assetJSON := marshalAsset asset
      let s1 := PutState assetID assetJSON s
      let transferReq : TransferRequest :=
        { AssetID := assetID, SellerID := clientID, BuyerID := buyerWalletID,
          Status := "Pending" }
      let transferJSON := marshalTransferRequest transferReq
      let s2 := PutState (transferKey assetID) transferJSON s1
      { store := s2, event := some ⟨"TransferInitiated", .json transferJSON⟩,
        error := none }

/-- The operation `CompleteTransfer` (phase 2). -/
def CompleteTransfer (ctx : Ctx) (assetID : String) (s : Store) : Outcome :=
  match GetState s (transferKey assetID) with
  | none => Outcome.fail s .transferRequestNotFound
  | some transferJSON =>
    let req := unmarshalTransferRequest transferJSON
    let clientID := ctx.clientID
    if req.Status ≠ "Pending" then Outcome.fail s .invalidTransferStatus
    else
      match ReadAsset s assetID with
      | .error _ => Outcome.fail s .nilDereference
      | .ok asset =>
        let asset : Asset :=
          { asset with Owner := req.BuyerID, Status := "Active", UpdatedBy := clientID,
                       UpdatedAt := ctx.now }
        let assetJSON := marshalAsset asset
        let s1 := PutState assetID assetJSON s
        let req : TransferRequest := { req with Status := "Completed", BuyerID := clientID }
        let transferJSON := marshalTransferRequest req
        let s2 := PutState (transferKey assetID) transferJSON s1
        { store := s2, event := some ⟨"AssetTransferred", .json assetJSON⟩,
          error := none }

/-- The operation `RejectTransfer` (phase 2 alternative). -/
def RejectTransfer (assetID : String) (s : Store) : Outcome :=
  match GetState s (transferKey assetID) with
  | none => Outcome.fail s .transferRequestNotFound
  | some transferJSON =>
    let req := unmarshalTransferRequest transferJSON
    if req.Status ≠ "Pending" then Outcome.fail s .transferNotPending
    else
      match ReadAsset s assetID with
      | .error _ => Outcome.fail s .nilDereference
      | .ok asset =>
        let asset : Asset := { asset with Status := "Active" }
        let assetJSON := marshalAsset asset
        let s1 := PutState assetID assetJSON s
        let req : TransferRequest := { req with Status := "Rejected" }
        let transferJSON := marshalTransferRequest req
        let s2 := PutState (transferKey assetID) transferJSON s1
        { store := s2, event := some ⟨"TransferRejected", .json transferJSON⟩,
          error := none }

/-- The operation `CancelTransfer` (phase 2 alternative). -/
def CancelTransfer (ctx : Ctx) (assetID : String) (s : Store) : Outcome :=
  match GetState s (transferKey assetID) with
  | none => Outcome.fail s .transferRequestNotFound
  | some transferJSON =>
    let req := unmarshalTransferRequest transferJSON
    let clientID := ctx.clientID
    if req.SellerID ≠ clientID then Outcome.fail s .onlySellerCanCancel
    else if req.Status ≠ "Pending" then Outcome.fail s .transferNotPending
    else
      match ReadAsset s assetID with
      | .error _ => Outcome.fail s .nilDereference
      | .ok asset =>
        let asset : Asset := { asset with Status := "Active" }
        let assetJSON := marshalAsset asset
        let s1 := PutState assetID assetJSON s
        let req : TransferRequest := { req with Status := "Cancelled" }
        let transferJSON := marshalTransferRequest req
        let s2 := PutState (transferKey assetID) transferJSON s1
        { store := s2, event := some ⟨"TransferCancelled", .json transferJSON⟩,
          error := none }

/-- The query `GetAllAssets`: scan every entry, skip the values that do not decode as an
`Asset`, keep the decoded assets whose `ID` is not empty. -/
def GetAllAssets (s : Store) : List Asset :=
  (GetStateByRange s).foldl
    (fun assets queryResponse =>
      match unmarshalAsset queryResponse.2 with
      | none => assets
      | some asset => if asset.ID ≠ "" then assets ++ [asset] else assets)
    []

/-- The transfer request of an asset as the resolving operations read it. -/
def readTransfer (s : Store) (assetID : String) : Option TransferRequest :=
  (GetState s (transferKey assetID)).map unmarshalTransferRequest

/-! ## Invocations and reachable states -/

/-- Whether the first list of characters starts the second. -/
def startsWithChars : List Char → List Char → Bool
  | [], _ => true
  | _ :: _, [] => false
  | c :: cs, d :: ds => c == d && startsWithChars cs ds

/-- Whether a key has the shape of a transfer key, `"transfer_"` followed by
anything. -/
def isTransferKey (k : String) : Bool := startsWithChars "transfer_".data k.data

/-- An invocation of one of the state-changing operations of the contract (the
queries `UserExists`, `ReadUser`, `AssetExists`, `ReadAsset` and `GetAllAssets`
write nothing). -/
inductive Call where
  | createUser (id name role : String)
  | createAsset (id name metaUrl : String) (views : List String)
  | updateAsset (id name metaUrl status : String) (views : List String)
  | deleteAsset (id : String)
  | initiateTransfer (assetID buyerWalletID : String)
  | completeTransfer (assetID : String)
  | rejectTransfer (assetID : String)
  | cancelTransfer (assetID : String)
  deriving DecidableEq, Repr

/-- Run an invocation. -/
def Call.exec (ctx : Ctx) : Call → Store → Outcome
  | .createUser id name role, s => CreateUser ctx id name role s
  | .createAsset id name metaUrl views, s => CreateAsset ctx id name metaUrl views s
  | .updateAsset id name metaUrl status views, s => UpdateAsset ctx id name metaUrl status views s
  | .deleteAsset id, s => DeleteAsset id s
  | .initiateTransfer assetID buyerWalletID, s => InitiateTransfer ctx assetID buyerWalletID s
  | .completeTransfer assetID, s => CompleteTransfer ctx assetID s
  | .rejectTransfer assetID, s => RejectTransfer assetID s
  | .cancelTransfer assetID, s => CancelTransfer ctx assetID s

/-- Whether an invocation returns without error. -/
def Call.succeeds (ctx : Ctx) (c : Call) (s : Store) : Bool := (c.exec ctx s).error.isNone

/-- The world state after the transaction of an invocation: its writes are
committed when it returns no error and discarded otherwise. -/
def Call.apply (ctx : Ctx) (c : Call) (s : Store) : Store :=
  if c.succeeds ctx s then (c.exec ctx s).store else s

/-- The id argument of an invocation. -/
def Call.target : Call → String
  | .createUser id _ _ => id
  | .createAsset id _ _ _ => id
  | .updateAsset id _ _ _ _ => id
  | .deleteAsset id => id
  | .initiateTransfer assetID _ => assetID
  | .completeTransfer assetID => assetID
  | .rejectTransfer assetID => assetID
  | .cancelTransfer assetID => assetID

/-- Run a sequence of invocations, each in its own transaction. -/
def runCalls : List (Ctx × Call) → Store → Store
  | [], s => s
  | (ctx, c) :: rest, s => runCalls rest (c.apply ctx s)

/-- The number of invocations of a run that satisfy `p` and succeed. -/
def countSuccessful (p : Call → Bool) : List (Ctx × Call) → Store → Nat
  | [], _ => 0
  | (ctx, c) :: rest, s =>
    (if p c && c.succeeds ctx s then 1 else 0) + countSuccessful p rest (c.apply ctx s)

/-- The states reachable from the empty world state by invocations that satisfy
`P`. -/
inductive ReachableBy (P : Ctx → Call → Prop) : Store → Prop where
  | empty : ReachableBy P []
  | step {s : Store} (ctx : Ctx) (c : Call) :
      ReachableBy P s → P ctx c → ReachableBy P (c.apply ctx s)

/-- The states reachable from the empty world state by any invocations. -/
def Reachable (s : Store) : Prop := ReachableBy (fun _ _ => True) s

/-- The operations that act on an existing asset: the content edit and the four
transfer operations. -/
inductive AssetOp where
  | update (name metaUrl status : String) (views : List String)
  | initiate (buyerWalletID : String)
  | complete
  | reject
  | cancel
  deriving DecidableEq, Repr

/-- The invocation of an asset operation on the asset `id`. -/
def AssetOp.toCall (id : String) : AssetOp → Call
  | .update name metaUrl status views => .updateAsset id name metaUrl status views
  | .initiate buyerWalletID => .initiateTransfer id buyerWalletID
  | .complete => .completeTransfer id
  | .reject => .rejectTransfer id
  | .cancel => .cancelTransfer id

/-- Whether an invocation is an `UpdateAsset`. -/
def Call.isUpdate : Call → Bool
  | .updateAsset _ _ _ _ _ => true
  | _ => false

/-- Whether an invocation is an `UpdateAsset` or a `CompleteTransfer`. -/
def Call.isUpdateOrComplete : Call → Bool
  | .updateAsset _ _ _ _ _ => true
  | .completeTransfer _ => true
  | _ => false

/-- The invocations of the restricted protocol: the id argument is not shaped
like a transfer key, and `UpdateAsset` is not given the status `Locked`. -/
def Call.regular : Call → Bool
  | .updateAsset id _ _ status _ => !isTransferKey id && decide (status ≠ "Locked")
  | c => !isTransferKey c.target

/-- Every record stored under a transfer key is a marshalled `TransferRequest`
whose status is not `Locked`. -/
def RequestsWellFormed (s : Store) : Prop :=
  ∀ t j, GetState s (transferKey t) = some j →
    ∃ r, j = marshalTransferRequest r ∧ r.Status ≠ "Locked"

/-- Every stored asset with status `Locked` has a request with status `Pending`
stored under its transfer key. -/
def LockedHavePending (s : Store) : Prop :=
  ∀ id asset, ReadAsset s id = .ok asset → asset.Status = "Locked" →
    ∃ req, readTransfer s id = some req ∧ req.Status = "Pending"

/-- The keys an invocation may write: its id argument, and for the four transfer
operations also the transfer key derived from it. -/
def Call.writes : Call → List String
  | .createUser id _ _ => [id]
  | .createAsset id _ _ _ => [id]
  | .updateAsset id _ _ _ _ => [id]
  | .deleteAsset id => [id]
  | .initiateTransfer assetID _ => [assetID, transferKey assetID]
  | .completeTransfer assetID => [assetID, transferKey assetID]
  | .rejectTransfer assetID => [assetID, transferKey assetID]
  | .cancelTransfer assetID => [assetID, transferKey assetID]

/-- The invocations of the asset registry and the transfer coordinator (no
`CreateUser`) by a caller with a non-empty identity, with an id argument that is
not shaped like a transfer key and, for `InitiateTransfer`, a non-empty buyer. -/
def Call.ownerSafe (ctx : Ctx) : Call → Bool
  | .createUser _ _ _ => false
  | .initiateTransfer assetID buyerWalletID =>
    decide (ctx.clientID ≠ "") && !isTransferKey assetID && decide (buyerWalletID ≠ "")
  | c => decide (ctx.clientID ≠ "") && !isTransferKey c.target

/-- Every record stored under a transfer key is a marshalled `TransferRequest`
with a non-empty buyer. -/
def RequestsHaveBuyer (s : Store) : Prop :=
  ∀ t j, GetState s (transferKey t) = some j →
    ∃ r, j = marshalTransferRequest r ∧ r.BuyerID ≠ ""

/-- Every record stored under a key that is no transfer key is a marshalled
`Asset` with a non-empty owner. -/
def AssetsHaveOwner (s : Store) : Prop :=
  ∀ k j, GetState s k = some j → isTransferKey k = false →
    ∃ a, j = marshalAsset a ∧ a.Owner ≠ ""

/-! ## Sample transactions -/

/-- A transaction context of the identity `alice`. -/
def aliceCtx : Ctx := ⟨"alice", "tx-a", 1700000000, by decide⟩

/-- A transaction context of the identity `bob`. -/
def bobCtx : Ctx := ⟨"bob", "tx-b", 1700000100, by decide⟩

/-- The world state after `alice` created the asset `a1`. -/
def createdStore : Store := (CreateAsset aliceCtx "a1" "deed" "ipfs://a1" ["public"] []).store

/-- The asset `a1` as created by `alice`. -/
def createdAsset : Asset :=
  { ID := "a1", Name := "deed", Owner := "alice", MetaUrl := "ipfs://a1", Status := "Active",
    Views := ["public"], Sequence := 1, LastTxid := "tx-a", UpdatedAt := 1700000000,
    UpdatedBy := "alice" }

/-- The world state after `alice` created `a1` and initiated its transfer to `bob`. -/
def lockedStore : Store := (InitiateTransfer aliceCtx "a1" "bob" createdStore).store

/-- The asset `a1` while its transfer is pending. -/
def lockedAsset : Asset := { createdAsset with Status := "Locked" }

/-- The pending request of the transfer of `a1` from `alice` to `bob`. -/
def pendingRequest : TransferRequest :=
  { AssetID := "a1", SellerID := "alice", BuyerID := "bob", Status := "Pending" }

/-- The world state after `bob` completed the transfer of `a1`. -/
def completedStore : Store := (CompleteTransfer bobCtx "a1" lockedStore).store

/-- Eight successful invocations from the empty world state: two users, three
assets, and the start of the transfer of `a1`. -/
def mixedCalls : List (Ctx × Call) :=
  [(aliceCtx, .createUser "u1" "Alice" "issuer"),
   (bobCtx, .createUser "u2" "Bob" "buyer"),
   (aliceCtx, .createAsset "a1" "deed" "ipfs://a1" ["public"]),
   (aliceCtx, .createAsset "a2" "bond" "ipfs://a2" ["public"]),
   (bobCtx, .createAsset "a3" "note" "ipfs://a3" ["u1"]),
   (aliceCtx, .initiateTransfer "a1" "bob")]

/-- The world state they leave: 2 `User` records, 3 `Asset` records and 1
`TransferRequest` record. -/
def mixedStore : Store := runCalls mixedCalls []

/-- The transfer of `a1` from creation on: initiated by `alice`, completed by
`bob`. -/
def handoverOps : List (Ctx × AssetOp) := [(aliceCtx, .initiate "bob"), (bobCtx, .complete)]

/-- The invocations of a list of asset operations on the asset `id`. -/
def callsOn (id : String) (ops : List (Ctx × AssetOp)) : List (Ctx × Call) :=
  ops.map (fun p => (p.1, p.2.toCall id))

/-- The owner `alice` creates `a1` and edits it with the status `Locked`. -/
def selfLockCalls : List (Ctx × Call) :=
  [(aliceCtx, .createAsset "a1" "deed" "ipfs://a1" ["public"]),
   (aliceCtx, .updateAsset "a1" "deed" "ipfs://a1" "Locked" ["public"])]

/-- The owner `alice` creates `a1` and initiates its transfer to `bob`. -/
def lockCalls : List (Ctx × Call) :=
  [(aliceCtx, .createAsset "a1" "deed" "ipfs://a1" ["public"]),
   (aliceCtx, .initiateTransfer "a1" "bob")]

/-- After that, `bob` deletes the key of the transfer request of `a1`. -/
def orphanCalls : List (Ctx × Call) := lockCalls ++ [(bobCtx, .deleteAsset "transfer_a1")]

/-- Two edits of `a1` by `alice` around its transfer to `bob`. -/
def editOps : List (Ctx × AssetOp) :=
  [(aliceCtx, .update "deed" "ipfs://v2" "Active" ["public"]),
   (aliceCtx, .initiate "bob"), (bobCtx, .complete),
   (aliceCtx, .update "deed" "ipfs://v3" "Active" ["public"])]

/-- The request of `a1` after `bob` rejected the pending transfer. -/
def rejectedStore : Store := (RejectTransfer "a1" lockedStore).store

/-- After `alice` created `a1` and initiated its transfer, she deletes the asset. -/
def danglingCalls : List (Ctx × Call) := lockCalls ++ [(aliceCtx, .deleteAsset "a1")]

/-- The world state with a pending request and no asset. -/
def danglingStore : Store := runCalls danglingCalls []

/-- The identity `bob` creates an asset under the id `transfer_a1`, then `alice`
creates `a1`. -/
def shadowCalls : List (Ctx × Call) :=
  [(bobCtx, .createAsset "transfer_a1" "bond" "ipfs://b" ["public"]),
   (aliceCtx, .createAsset "a1" "deed" "ipfs://a1" ["public"])]

/-- The world state with an asset stored under a transfer-shaped key. -/
def shadowStore : Store := runCalls shadowCalls []

/-- The owner `alice` creates `a1` and initiates its transfer with an empty
buyer id; `bob` completes it. -/
def emptyBuyerCalls : List (Ctx × Call) :=
  [(aliceCtx, .createAsset "a1" "deed" "ipfs://a1" ["public"]),
   (aliceCtx, .initiateTransfer "a1" ""),
   (bobCtx, .completeTransfer "a1")]

/-- The identity `alice` registers the user `u1`. -/
def userCalls : List (Ctx × Call) := [(aliceCtx, .createUser "u1" "Alice" "issuer")]

/-- The happy path of `a1`: created and offered by `alice`, completed by `bob`. -/
def happyCalls : List (Ctx × Call) := lockCalls ++ [(bobCtx, Call.completeTransfer "a1")]

/-- The asset `a1` after its transfer to `bob`. -/
def transferredAsset : Asset :=
  { createdAsset with Owner := "bob", UpdatedAt := 1700000100, UpdatedBy := "bob" }

/-! ## The world state and the JSON encoding -/

theorem GetState_PutState_self (s : Store) (k : String) (v : JObj) :
    GetState (PutState k v s) k = some v := by
  induction s with
  | nil => simp [PutState, GetState]
  | cons hd tl ih =>
    obtain ⟨k', v'⟩ := hd
    by_cases h1 : k' = k
    · simp [PutState, GetState, h1]
    · by_cases h2 : k.data < k'.data
      · simp [PutState, GetState, h1, h2]
      · simp [PutState, GetState, h1, h2, ih]

theorem GetState_PutState_ne (s : Store) (k k' : String) (v : JObj) (h : k ≠ k') :
    GetState (PutState k v s) k' = GetState s k' := by
  induction s with
  | nil => simp [PutState, GetState, h]
  | cons hd tl ih =>
    obtain ⟨k0, v0⟩ := hd
    by_cases h1 : k0 = k
    · subst h1
      simp [PutState, GetState, h]
    · by_cases h2 : k.data < k0.data
      · simp [PutState, GetState, h1, h2, h]
      · simp [PutState, GetState, h1, h2, ih]

theorem GetState_DelState_self (s : Store) (k : String) : GetState (DelState k s) k = none := by
  induction s with
  | nil => simp [DelState, GetState]
  | cons hd tl ih =>
    obtain ⟨k0, v0⟩ := hd
    by_cases h1 : k0 = k
    · simpa [DelState, List.filter_cons, h1] using ih
    · simpa [DelState, List.filter_cons, h1, GetState] using ih

theorem GetState_DelState_ne (s : Store) (k k' : String) (h : k ≠ k') :
    GetState (DelState k s) k' = GetState s k' := by
  induction s with
  | nil => simp [DelState, GetState]
  | cons hd tl ih =>
    obtain ⟨k0, v0⟩ := hd
    by_cases h1 : k0 = k
    · subst h1
      simpa [DelState, List.filter_cons, GetState, h] using ih
    · by_cases h2 : k0 = k'
      · subst h2
        simp [DelState, List.filter_cons, h1, GetState]
      · simpa [DelState, List.filter_cons, h1, GetState, h2] using ih

theorem decodeUint64_lt {v : Option JVal} {n : Nat} (h : decodeUint64 v = some n) :
    n < 2 ^ 64 := by
  unfold decodeUint64 at h
  split at h
  · injection h with h; omega
  · injection h with h; omega
  · split_ifs at h with hc
    injection h with h
    omega
  · cases h

theorem decodeInt64_range {v : Option JVal} {n : Int} (h : decodeInt64 v = some n) :
    -(2 ^ 63) ≤ n ∧ n < 2 ^ 63 := by
  unfold decodeInt64 at h
  split at h
  · injection h with h; omega
  · injection h with h; omega
  · split_ifs at h with hc
    injection h with h
    omega
  · cases h

theorem unmarshalAsset_range {o : JObj} {a : Asset} (h : unmarshalAsset o = some a) :
    a.Sequence < 2 ^ 64 ∧ (-(2 ^ 63) ≤ a.UpdatedAt ∧ a.UpdatedAt < 2 ^ 63) := by
  simp only [unmarshalAsset, Option.bind_eq_bind, Option.bind_eq_some, Option.pure_def,
    Option.some.injEq] at h
  obtain ⟨_, _, _, _, _, _, _, _, _, _, _, _, sq, hsq, _, _, ua, hua, _, _, rfl⟩ := h
  exact ⟨decodeUint64_lt hsq, decodeInt64_range hua⟩

theorem unmarshalAsset_marshalAsset (a : Asset) (h1 : a.Sequence < 2 ^ 64)
    (h2 : -(2 ^ 63) ≤ a.UpdatedAt ∧ a.UpdatedAt < 2 ^ 63) :
    unmarshalAsset (marshalAsset a) = some a := by
  have h3 : a.Sequence < 18446744073709551616 := by omega
  have h4 : -9223372036854775808 ≤ a.UpdatedAt ∧ a.UpdatedAt < 9223372036854775808 := by
    constructor <;> omega
  simp [unmarshalAsset, marshalAsset, JObj.field, decodeString, decodeStrings, decodeUint64,
    decodeInt64, h3, h4]

theorem unmarshalTransferRequest_marshal (r : TransferRequest) :
    unmarshalTransferRequest (marshalTransferRequest r) = r := by
  simp [unmarshalTransferRequest, marshalTransferRequest, JObj.field, decodeString]

theorem transferKey_ne_self (a : String) : transferKey a ≠ a := by
  intro h
  have h1 := congrArg String.length h
  simp [transferKey, String.length_append] at h1
  have h2 : "transfer_".length = 9 := by decide
  omega

theorem transferKey_injective {a b : String} (h : transferKey a = transferKey b) : a = b := by
  have h1 := congrArg String.data h
  simp only [transferKey, String.data_append] at h1
  exact String.ext (List.append_cancel_left h1)

theorem ReadAsset_range {s : Store} {id : String} {a : Asset} (h : ReadAsset s id = .ok a) :
    a.Sequence < 2 ^ 64 ∧ (-(2 ^ 63) ≤ a.UpdatedAt ∧ a.UpdatedAt < 2 ^ 63) := by
  unfold ReadAsset at h
  split at h
  · cases h
  · split at h
    · cases h
    · rename_i hu
      injection h with h
      subst h
      exact unmarshalAsset_range hu

theorem ReadAsset_of_GetState {s : Store} {id : String} {j : JObj} {a : Asset}
    (h1 : GetState s id = some j) (h2 : unmarshalAsset j = some a) :
    ReadAsset s id = .ok a := by
  unfold ReadAsset
  rw [h1]
  simp only [h2]

theorem ReadAsset_PutState_self (s : Store) (id : String) (a : Asset)
    (h1 : a.Sequence < 2 ^ 64) (h2 : -(2 ^ 63) ≤ a.UpdatedAt ∧ a.UpdatedAt < 2 ^ 63) :
    ReadAsset (PutState id (marshalAsset a) s) id = .ok a :=
  ReadAsset_of_GetState (GetState_PutState_self s id _) (unmarshalAsset_marshalAsset a h1 h2)

theorem ReadAsset_PutState_ne (s : Store) (k id : String) (v : JObj) (h : k ≠ id) :
    ReadAsset (PutState k v s) id = ReadAsset s id := by
  unfold ReadAsset
  rw [GetState_PutState_ne s k id v h]

/-! ## Each operation on each of its paths -/

theorem CreateAsset_of_absent (ctx : Ctx) (id name metaUrl : String) (views : List String)
    (s : Store) (h : GetState s id = none) :
    CreateAsset ctx id name metaUrl views s =
      { store := PutState id (marshalAsset
          { ID := id, Name := name, Owner := ctx.clientID, MetaUrl := metaUrl,
            Status := "Active", Views := views, Sequence := 1, LastTxid := ctx.txID,
            UpdatedAt := ctx.now, UpdatedBy := ctx.clientID }) s,
        event := some ⟨"AssetCreated", .json (marshalAsset
          { ID := id, Name := name, Owner := ctx.clientID, MetaUrl := metaUrl,
            Status := "Active", Views := views, Sequence := 1, LastTxid := ctx.txID,
            UpdatedAt := ctx.now, UpdatedBy := ctx.clientID })⟩,
        error := none } := by
  simp [CreateAsset, AssetExists, h]

theorem CreateAsset_of_present (ctx : Ctx) (id name metaUrl : String) (views : List String)
    (s : Store) (h : GetState s id ≠ none) :
    CreateAsset ctx id name metaUrl views s = Outcome.fail s (.assetAlreadyExists id) := by
  have h1 : (GetState s id).isSome = true := Option.isSome_iff_ne_none.mpr h
  simp [CreateAsset, AssetExists, h1]

theorem UpdateAsset_of_error (ctx : Ctx) (id name metaUrl status : String)
    (views : List String) (s : Store) (e : ContractError) (h : ReadAsset s id = .error e) :
    UpdateAsset ctx id name metaUrl status views s = Outcome.fail s e := by
  simp [UpdateAsset, h]

theorem UpdateAsset_of_not_owner (ctx : Ctx) (id name metaUrl status : String)
    (views : List String) (s : Store) (asset : Asset) (h : ReadAsset s id = .ok asset)
    (ho : asset.Owner ≠ ctx.clientID) :
    UpdateAsset ctx id name metaUrl status views s = Outcome.fail s .onlyOwnerCanUpdate := by
  simp [UpdateAsset, h, ho]

theorem UpdateAsset_of_locked (ctx : Ctx) (id name metaUrl status : String)
    (views : List String) (s : Store) (asset : Asset) (h : ReadAsset s id = .ok asset)
    (ho : asset.Owner = ctx.clientID) (hl : asset.Status = "Locked") :
    UpdateAsset ctx id name metaUrl status views s =
      Outcome.fail s .assetLockedCannotUpdate := by
  simp [UpdateAsset, h, ho, hl]

theorem UpdateAsset_of_owner (ctx : Ctx) (id name metaUrl status : String)
    (views : List String) (s : Store) (asset : Asset) (h : ReadAsset s id = .ok asset)
    (ho : asset.Owner = ctx.clientID) (hl : asset.Status ≠ "Locked") :
    UpdateAsset ctx id name metaUrl status views s =
      { store := PutState id (marshalAsset
          { asset with Name := name, MetaUrl := metaUrl, Status := status, Views := views,
                       Sequence := (asset.Sequence + 1) % 2 ^ 64, LastTxid := ctx.txID,
                       UpdatedAt := ctx.now, UpdatedBy := ctx.clientID }) s,
        event := some ⟨"AssetUpdated", .json (marshalAsset
          { asset with Name := name, MetaUrl := metaUrl, Status := status, Views := views,
                       Sequence := (asset.Sequence + 1) % 2 ^ 64, LastTxid := ctx.txID,
                       UpdatedAt := ctx.now, UpdatedBy := ctx.clientID })⟩,
        error := none } := by
  simp [UpdateAsset, h, ho, hl]

theorem InitiateTransfer_of_error (ctx : Ctx) (a buyer : String) (s : Store)
    (e : ContractError) (h : ReadAsset s a = .error e) :
    InitiateTransfer ctx a buyer s = Outcome.fail s e := by
  simp [InitiateTransfer, h]

theorem InitiateTransfer_of_not_owner (ctx : Ctx) (a buyer : String) (s : Store)
    (asset : Asset) (h : ReadAsset s a = .ok asset) (ho : asset.Owner ≠ ctx.clientID) :
    InitiateTransfer ctx a buyer s = Outcome.fail s .onlyOwnerCanInitiate := by
  simp [InitiateTransfer, h, ho]

theorem InitiateTransfer_of_locked (ctx : Ctx) (a buyer : String) (s : Store)
    (asset : Asset) (h : ReadAsset s a = .ok asset) (ho : asset.Owner = ctx.clientID)
    (hl : asset.Status = "Locked") :
    InitiateTransfer ctx a buyer s = Outcome.fail s .assetAlreadyLocked := by
  simp [InitiateTransfer, h, ho, hl]

theorem InitiateTransfer_of_owner (ctx : Ctx) (a buyer : String) (s : Store)
    (asset : Asset) (h : ReadAsset s a = .ok asset) (ho : asset.Owner = ctx.clientID)
    (hl : asset.Status ≠ "Locked") :
    InitiateTransfer ctx a buyer s =
      { store := PutState (transferKey a)
          (marshalTransferRequest
            { AssetID := a, SellerID := ctx.clientID, BuyerID := buyer, Status := "Pending" })
          (PutState a (marshalAsset
            { asset with Status := "Locked", UpdatedBy := ctx.clientID,
                         UpdatedAt := ctx.now }) s),
        event := some ⟨"TransferInitiated", .json (marshalTransferRequest
            { AssetID := a, SellerID := ctx.clientID, BuyerID := buyer,
              Status := "Pending" })⟩,
        error := none } := by
  simp [InitiateTransfer, h, ho, hl]

theorem CompleteTransfer_of_absent (ctx : Ctx) (a : String) (s : Store)
    (h : GetState s (transferKey a) = none) :
    CompleteTransfer ctx a s = Outcome.fail s .transferRequestNotFound := by
  simp [CompleteTransfer, h]

theorem CompleteTransfer_of_not_pending (ctx : Ctx) (a : String) (s : Store) (j : JObj)
    (h : GetState s (transferKey a) = some j)
    (hp : (unmarshalTransferRequest j).Status ≠ "Pending") :
    CompleteTransfer ctx a s = Outcome.fail s .invalidTransferStatus := by
  simp [CompleteTransfer, h, hp]

theorem CompleteTransfer_of_no_asset (ctx : Ctx) (a : String) (s : Store) (j : JObj)
    (e : ContractError) (h : GetState s (transferKey a) = some j)
    (hp : (unmarshalTransferRequest j).Status = "Pending") (ha : ReadAsset s a = .error e) :
    CompleteTransfer ctx a s = Outcome.fail s .nilDereference := by
  simp [CompleteTransfer, h, hp, ha]

theorem CompleteTransfer_of_pending (ctx : Ctx) (a : String) (s : Store) (j : JObj)
    (asset : Asset) (h : GetState s (transferKey a) = some j)
    (hp : (unmarshalTransferRequest j).Status = "Pending") (ha : ReadAsset s a = .ok asset) :
    CompleteTransfer ctx a s =
      { store := PutState (transferKey a)
          (marshalTransferRequest
            { unmarshalTransferRequest j with Status := "Completed",
                                              BuyerID := ctx.clientID })
          (PutState a (marshalAsset
            { asset with Owner := (unmarshalTransferRequest j).BuyerID, Status := "Active",
                         UpdatedBy := ctx.clientID, UpdatedAt := ctx.now }) s),
        event := some ⟨"AssetTransferred", .json (marshalAsset
            { asset with Owner := (unmarshalTransferRequest j).BuyerID, Status := "Active",
                         UpdatedBy := ctx.clientID, UpdatedAt := ctx.now })⟩,
        error := none } := by
  simp [CompleteTransfer, h, hp, ha]

theorem RejectTransfer_of_absent (a : String) (s : Store)
    (h : GetState s (transferKey a) = none) :
    RejectTransfer a s = Outcome.fail s .transferRequestNotFound := by
  simp [RejectTransfer, h]

theorem RejectTransfer_of_not_pending (a : String) (s : Store) (j : JObj)
    (h : GetState s (transferKey a) = some j)
    (hp : (unmarshalTransferRequest j).Status ≠ "Pending") :
    RejectTransfer a s = Outcome.fail s .transferNotPending := by
  simp [RejectTransfer, h, hp]

theorem RejectTransfer_of_no_asset (a : String) (s : Store) (j : JObj)
    (e : ContractError) (h : GetState s (transferKey a) = some j)
    (hp : (unmarshalTransferRequest j).Status = "Pending") (ha : ReadAsset s a = .error e) :
    RejectTransfer a s = Outcome.fail s .nilDereference := by
  simp [RejectTransfer, h, hp, ha]

theorem RejectTransfer_of_pending (a : String) (s : Store) (j : JObj)
    (asset : Asset) (h : GetState s (transferKey a) = some j)
    (hp : (unmarshalTransferRequest j).Status = "Pending") (ha : ReadAsset s a = .ok asset) :
    RejectTransfer a s =
      { store := PutState (transferKey a)
          (marshalTransferRequest { unmarshalTransferRequest j with Status := "Rejected" })
          (PutState a (marshalAsset { asset with Status := "Active" }) s),
        event := some ⟨"TransferRejected", .json (marshalTransferRequest
            { unmarshalTransferRequest j with Status := "Rejected" })⟩,
        error := none } := by
  simp [RejectTransfer, h, hp, ha]

theorem CancelTransfer_of_absent (ctx : Ctx) (a : String) (s : Store)
    (h : GetState s (transferKey a) = none) :
    CancelTransfer ctx a s = Outcome.fail s .transferRequestNotFound := by
  simp [CancelTransfer, h]

theorem CancelTransfer_of_not_seller (ctx : Ctx) (a : String) (s : Store) (j : JObj)
    (h : GetState s (transferKey a) = some j)
    (hs : (unmarshalTransferRequest j).SellerID ≠ ctx.clientID) :
    CancelTransfer ctx a s = Outcome.fail s .onlySellerCanCancel := by
  simp [CancelTransfer, h, hs]

theorem CancelTransfer_of_not_pending (ctx : Ctx) (a : String) (s : Store) (j : JObj)
    (h : GetState s (transferKey a) = some j)
    (hs : (unmarshalTransferRequest j).SellerID = ctx.clientID)
    (hp : (unmarshalTransferRequest j).Status ≠ "Pending") :
    CancelTransfer ctx a s = Outcome.fail s .transferNotPending := by
  simp [CancelTransfer, h, hs, hp]

theorem CancelTransfer_of_no_asset (ctx : Ctx) (a : String) (s : Store) (j : JObj)
    (e : ContractError) (h : GetState s (transferKey a) = some j)
    (hs : (unmarshalTransferRequest j).SellerID = ctx.clientID)
    (hp : (unmarshalTransferRequest j).Status = "Pending") (ha : ReadAsset s a = .error e) :
    CancelTransfer ctx a s = Outcome.fail s .nilDereference := by
  simp [CancelTransfer, h, hs, hp, ha]

theorem CancelTransfer_of_pending (ctx : Ctx) (a : String) (s : Store) (j : JObj)
    (asset : Asset) (h : GetState s (transferKey a) = some j)
    (hs : (unmarshalTransferRequest j).SellerID = ctx.clientID)
    (hp : (unmarshalTransferRequest j).Status = "Pending") (ha : ReadAsset s a = .ok asset) :
    CancelTransfer ctx a s =
      { store := PutState (transferKey a)
          (marshalTransferRequest { unmarshalTransferRequest j with Status := "Cancelled" })
          (PutState a (marshalAsset { asset with Status := "Active" }) s),
        event := some ⟨"TransferCancelled", .json (marshalTransferRequest
            { unmarshalTransferRequest j with Status := "Cancelled" })⟩,
        error := none } := by
  simp [CancelTransfer, h, hs, hp, ha]

/-- After the two writes of a transfer operation the asset key holds the asset
written first. -/
theorem ReadAsset_after_transfer_writes (s : Store) (a : String) (asset : Asset) (v : JObj)
    (h1 : asset.Sequence < 2 ^ 64)
    (h2 : -(2 ^ 63) ≤ asset.UpdatedAt ∧ asset.UpdatedAt < 2 ^ 63) :
    ReadAsset (PutState (transferKey a) v (PutState a (marshalAsset asset) s)) a =
      .ok asset := by
  rw [ReadAsset_PutState_ne _ _ _ _ (transferKey_ne_self a)]
  exact ReadAsset_PutState_self _ _ _ h1 h2

/-! ## What the successful paths leave in the world state -/

theorem CreateAsset_reads_back (ctx : Ctx) (id name metaUrl : String) (views : List String)
    (s : Store) (h : GetState s id = none) :
    (CreateAsset ctx id name metaUrl views s).error = none ∧
    ReadAsset (CreateAsset ctx id name metaUrl views s).store id =
      .ok { ID := id, Name := name, Owner := ctx.clientID, MetaUrl := metaUrl,
            Status := "Active", Views := views, Sequence := 1, LastTxid := ctx.txID,
            UpdatedAt := ctx.now, UpdatedBy := ctx.clientID } := by
  rw [CreateAsset_of_absent ctx id name metaUrl views s h]
  exact ⟨rfl, ReadAsset_PutState_self s id _ (by norm_num) ctx.now_int64⟩

theorem InitiateTransfer_locks (ctx : Ctx) (a buyer : String) (s : Store) (asset : Asset)
    (h : ReadAsset s a = .ok asset) (ho : asset.Owner = ctx.clientID)
    (hl : asset.Status ≠ "Locked") :
    (InitiateTransfer ctx a buyer s).error = none ∧
    ReadAsset (InitiateTransfer ctx a buyer s).store a =
      .ok { asset with Status := "Locked", UpdatedBy := ctx.clientID,
                       UpdatedAt := ctx.now } ∧
    GetState (InitiateTransfer ctx a buyer s).store (transferKey a) =
      some (marshalTransferRequest
        { AssetID := a, SellerID := ctx.clientID, BuyerID := buyer, Status := "Pending" }) := by
  rw [InitiateTransfer_of_owner ctx a buyer s asset h ho hl]
  exact ⟨rfl, ReadAsset_after_transfer_writes s a _ _ (ReadAsset_range h).1 ctx.now_int64,
    GetState_PutState_self _ _ _⟩

theorem CompleteTransfer_reassigns (ctx : Ctx) (a : String) (s : Store) (asset : Asset)
    (req : TransferRequest) (h1 : ReadAsset s a = .ok asset)
    (h2 : readTransfer s a = some req) (h3 : req.Status = "Pending") :
    (CompleteTransfer ctx a s).error = none ∧
    ReadAsset (CompleteTransfer ctx a s).store a =
      .ok { asset with Owner := req.BuyerID, Status := "Active",
                       UpdatedBy := ctx.clientID, UpdatedAt := ctx.now } ∧
    GetState (CompleteTransfer ctx a s).store (transferKey a) =
      some (marshalTransferRequest
        { req with Status := "Completed", BuyerID := ctx.clientID }) := by
  unfold readTransfer at h2
  obtain ⟨j, hj, hreq⟩ := Option.map_eq_some'.mp h2
  subst hreq
  rw [CompleteTransfer_of_pending ctx a s j asset hj h3 h1]
  exact ⟨rfl, ReadAsset_after_transfer_writes s a _ _ (ReadAsset_range h1).1 ctx.now_int64,
    GetState_PutState_self _ _ _⟩

theorem CancelTransfer_unlocks (ctx : Ctx) (a : String) (s : Store) (asset : Asset)
    (req : TransferRequest) (h1 : ReadAsset s a = .ok asset)
    (h2 : readTransfer s a = some req) (hs : req.SellerID = ctx.clientID)
    (h3 : req.Status = "Pending") :
    (CancelTransfer ctx a s).error = none ∧
    ReadAsset (CancelTransfer ctx a s).store a = .ok { asset with Status := "Active" } ∧
    GetState (CancelTransfer ctx a s).store (transferKey a) =
      some (marshalTransferRequest { req with Status := "Cancelled" }) := by
  unfold readTransfer at h2
  obtain ⟨j, hj, hreq⟩ := Option.map_eq_some'.mp h2
  subst hreq
  rw [CancelTransfer_of_pending ctx a s j asset hj hs h3 h1]
  exact ⟨rfl, ReadAsset_after_transfer_writes s a _ _ (ReadAsset_range h1).1
    (ReadAsset_range h1).2, GetState_PutState_self _ _ _⟩

theorem readTransfer_of_GetState {s : Store} {a : String} {r : TransferRequest}
    (h : GetState s (transferKey a) = some (marshalTransferRequest r)) :
    readTransfer s a = some r := by
  unfold readTransfer
  rw [h, Option.map_some', unmarshalTransferRequest_marshal]

/-! ## The transfer protocol -/

/-- C1: the full transfer happy path. In a world state with no record at `a`,
after `CreateAsset a` by a caller `A` and `InitiateTransfer a B` by `A`, the asset
at `a` is `Locked` and owned by `A`; `CompleteTransfer a` by `B` then succeeds and
leaves the asset owned by `B` with status `Active` and the request at
`"transfer_" + a` with status `Completed`. -/
theorem transfer_happy_path (ctxA ctxA2 ctxB : Ctx) (a name metaUrl : String)
    (views : List String) (s : Store) (hA : ctxA2.clientID = ctxA.clientID)
    (habs : GetState s a = none) :
    (CreateAsset ctxA a name metaUrl views s).error = none ∧
    (InitiateTransfer ctxA2 a ctxB.clientID
      (CreateAsset ctxA a name metaUrl views s).store).error = none ∧
    (∃ asset, ReadAsset (InitiateTransfer ctxA2 a ctxB.clientID
        (CreateAsset ctxA a name metaUrl views s).store).store a = .ok asset ∧
      asset.Status = "Locked" ∧ asset.Owner = ctxA.clientID) ∧
    (CompleteTransfer ctxB a (InitiateTransfer ctxA2 a ctxB.clientID
      (CreateAsset ctxA a name metaUrl views s).store).store).error = none ∧
    (∃ asset, ReadAsset (CompleteTransfer ctxB a (InitiateTransfer ctxA2 a ctxB.clientID
        (CreateAsset ctxA a name metaUrl views s).store).store).store a = .ok asset ∧
      asset.Owner = ctxB.clientID ∧ asset.Status = "Active") ∧
    (∃ req, readTransfer (CompleteTransfer ctxB a (InitiateTransfer ctxA2 a ctxB.clientID
        (CreateAsset ctxA a name metaUrl views s).store).store).store a = some req ∧
      req.Status = "Completed") := by
  obtain ⟨e1, r1⟩ := CreateAsset_reads_back ctxA a name metaUrl views s habs
  have hne : ("Active" : String) ≠ "Locked" := by decide
  obtain ⟨e2, r2, g2⟩ := InitiateTransfer_locks ctxA2 a ctxB.clientID _ _ r1 hA.symm hne
  obtain ⟨e3, r3, g3⟩ := CompleteTransfer_reassigns ctxB a _ _ _ r2
    (readTransfer_of_GetState g2) rfl
  exact ⟨e1, e2, ⟨_, r2, rfl, rfl⟩, e3, ⟨_, r3, rfl, rfl⟩,
    ⟨_, readTransfer_of_GetState g3, rfl⟩⟩

/-- The happy path run by `alice` and `bob` from the empty world state. -/
theorem transfer_happy_path_witness :
    aliceCtx.clientID = aliceCtx.clientID ∧ GetState [] "a1" = none ∧
    (∃ asset, ReadAsset completedStore "a1" = .ok asset ∧
      asset.Owner = "bob" ∧ asset.Status = "Active") :=
  ⟨rfl, rfl,
   (transfer_happy_path aliceCtx aliceCtx bobCtx "a1" "deed" "ipfs://a1" ["public"] []
      rfl rfl).2.2.2.2.1⟩

/-- C2: `InitiateTransfer a buyer` by caller `c` succeeds exactly when an asset is
stored at `a`, `c` is its owner and its status is not `Locked`. It fails with
`NotFound` when no record is stored at `a`, with `Forbidden` when `c` is not the
owner, and with `InvalidState` when the owner calls it on a `Locked` asset. On
success the asset at `a` is the old asset with status `Locked`, `updatedBy = c`
and the time of the call (owner, name, metaUrl, views and sequence unchanged), and
the record at `"transfer_" + a` is exactly the request
`(a, seller c, buyer, Pending)`. -/
theorem InitiateTransfer_contract (ctx : Ctx) (a buyer : String) (s : Store) :
    ((InitiateTransfer ctx a buyer s).error = none ↔
      ∃ asset, ReadAsset s a = .ok asset ∧ asset.Owner = ctx.clientID ∧
        asset.Status ≠ "Locked") ∧
    (GetState s a = none →
      (InitiateTransfer ctx a buyer s).error.map ContractError.kind = some .NotFound) ∧
    (∀ asset, ReadAsset s a = .ok asset → asset.Owner ≠ ctx.clientID →
      (InitiateTransfer ctx a buyer s).error.map ContractError.kind = some .Forbidden) ∧
    (∀ asset, ReadAsset s a = .ok asset → asset.Owner = ctx.clientID →
      asset.Status = "Locked" →
      (InitiateTransfer ctx a buyer s).error.map ContractError.kind = some .InvalidState) ∧
    (∀ asset, ReadAsset s a = .ok asset → (InitiateTransfer ctx a buyer s).error = none →
      ReadAsset (InitiateTransfer ctx a buyer s).store a =
        .ok { asset with Status := "Locked", UpdatedBy := ctx.clientID,
                         UpdatedAt := ctx.now } ∧
      GetState (InitiateTransfer ctx a buyer s).store (transferKey a) =
        some (marshalTransferRequest
          { AssetID := a, SellerID := ctx.clientID, BuyerID := buyer,
            Status := "Pending" })) := by
  have key : ∀ asset, ReadAsset s a = .ok asset →
      (InitiateTransfer ctx a buyer s).error = none →
      asset.Owner = ctx.clientID ∧ asset.Status ≠ "Locked" := by
    intro asset h he
    by_cases ho : asset.Owner = ctx.clientID
    · by_cases hl : asset.Status = "Locked"
      · rw [InitiateTransfer_of_locked ctx a buyer s asset h ho hl] at he
        cases he
      · exact ⟨ho, hl⟩
    · rw [InitiateTransfer_of_not_owner ctx a buyer s asset h ho] at he
      cases he
  refine ⟨⟨?_, ?_⟩, ?_, ?_, ?_, ?_⟩
  · intro he
    cases h : ReadAsset s a with
    | error e =>
      rw [InitiateTransfer_of_error ctx a buyer s e h] at he
      cases he
    | ok asset => exact ⟨asset, rfl, key asset h he⟩
  · rintro ⟨asset, h, ho, hl⟩
    exact (InitiateTransfer_locks ctx a buyer s asset h ho hl).1
  · intro h
    have hr : ReadAsset s a = .error (.assetDoesNotExist a) := by
      unfold ReadAsset
      rw [h]
    rw [InitiateTransfer_of_error ctx a buyer s _ hr]
    rfl
  · intro asset h ho
    rw [InitiateTransfer_of_not_owner ctx a buyer s asset h ho]
    rfl
  · intro asset h ho hl
    rw [InitiateTransfer_of_locked ctx a buyer s asset h ho hl]
    rfl
  · intro asset h he
    obtain ⟨ho, hl⟩ := key asset h he
    exact (InitiateTransfer_locks ctx a buyer s asset h ho hl).2

/-- The owner `alice` initiates the transfer of her asset `a1` to `bob`. -/
theorem InitiateTransfer_contract_witness :
    ReadAsset createdStore "a1" = .ok createdAsset ∧
    (InitiateTransfer aliceCtx "a1" "bob" createdStore).error = none ∧
    ReadAsset lockedStore "a1" = .ok lockedAsset ∧
    GetState lockedStore (transferKey "a1") = some (marshalTransferRequest pendingRequest) :=
  ⟨rfl, rfl,
   (InitiateTransfer_contract aliceCtx "a1" "bob" createdStore).2.2.2.2 createdAsset rfl rfl⟩

/-- C3: whoever the caller `c` is, when the world state holds an asset at `a` and a
`Pending` request at `"transfer_" + a` with declared buyer `b`,
`CompleteTransfer a` by `c` succeeds; the asset gets owner `b` (the buyer stored in
the request), status `Active` and `updatedBy = c`, and the stored request gets
status `Completed` and `buyerId = c`. -/
theorem CompleteTransfer_pending (ctx : Ctx) (a : String) (s : Store) (asset : Asset)
    (req : TransferRequest) (h1 : ReadAsset s a = .ok asset)
    (h2 : readTransfer s a = some req) (h3 : req.Status = "Pending") :
    (CompleteTransfer ctx a s).error = none ∧
    ReadAsset (CompleteTransfer ctx a s).store a =
      .ok { asset with Owner := req.BuyerID, Status := "Active",
                       UpdatedBy := ctx.clientID, UpdatedAt := ctx.now } ∧
    GetState (CompleteTransfer ctx a s).store (transferKey a) =
      some (marshalTransferRequest
        { req with Status := "Completed", BuyerID := ctx.clientID }) :=
  CompleteTransfer_reassigns ctx a s asset req h1 h2 h3

/-- A third identity `alice` completes the transfer she declared for `bob`: the
asset goes to `bob`, the request records `alice` as buyer. -/
theorem CompleteTransfer_pending_witness :
    ReadAsset lockedStore "a1" = .ok lockedAsset ∧
    readTransfer lockedStore "a1" = some pendingRequest ∧
    pendingRequest.Status = "Pending" ∧
    (CompleteTransfer aliceCtx "a1" lockedStore).error = none ∧
    ReadAsset (CompleteTransfer aliceCtx "a1" lockedStore).store "a1" =
      .ok { lockedAsset with Owner := "bob", Status := "Active" } ∧
    GetState (CompleteTransfer aliceCtx "a1" lockedStore).store (transferKey "a1") =
      some (marshalTransferRequest
        { pendingRequest with Status := "Completed", BuyerID := "alice" }) :=
  ⟨rfl, rfl, rfl,
   CompleteTransfer_pending aliceCtx "a1" lockedStore lockedAsset pendingRequest rfl rfl rfl⟩

/-- C4: when the world state holds an asset at `a` and a request at
`"transfer_" + a`, `CancelTransfer a` by a caller other than the request's seller
fails with `Forbidden`, whatever the request status, and leaves the world state
unchanged; by the seller while the request is `Pending` it succeeds, sets the
asset's status to `Active` with every other field (the owner among them)
unchanged, and sets the request's status to `Cancelled`. -/
theorem CancelTransfer_contract (ctx : Ctx) (a : String) (s : Store) (asset : Asset)
    (req : TransferRequest) (h1 : ReadAsset s a = .ok asset)
    (h2 : readTransfer s a = some req) :
    (req.SellerID ≠ ctx.clientID →
      (CancelTransfer ctx a s).error.map ContractError.kind = some .Forbidden ∧
      (CancelTransfer ctx a s).store = s ∧ (CancelTransfer ctx a s).event = none) ∧
    (req.SellerID = ctx.clientID → req.Status = "Pending" →
      (CancelTransfer ctx a s).error = none ∧
      ReadAsset (CancelTransfer ctx a s).store a = .ok { asset with Status := "Active" } ∧
      GetState (CancelTransfer ctx a s).store (transferKey a) =
        some (marshalTransferRequest { req with Status := "Cancelled" })) := by
  refine ⟨?_, fun hs h3 => CancelTransfer_unlocks ctx a s asset req h1 h2 hs h3⟩
  intro hs
  unfold readTransfer at h2
  obtain ⟨j, hj, hreq⟩ := Option.map_eq_some'.mp h2
  subst hreq
  rw [CancelTransfer_of_not_seller ctx a s j hj hs]
  exact ⟨rfl, rfl, rfl⟩

/-- On the pending transfer of `a1`, `bob` may not cancel and `alice` may. -/
theorem CancelTransfer_contract_witness :
    ReadAsset lockedStore "a1" = .ok lockedAsset ∧
    readTransfer lockedStore "a1" = some pendingRequest ∧
    ((CancelTransfer bobCtx "a1" lockedStore).error.map ContractError.kind =
        some .Forbidden ∧
      (CancelTransfer bobCtx "a1" lockedStore).store = lockedStore ∧
      (CancelTransfer bobCtx "a1" lockedStore).event = none) ∧
    (CancelTransfer aliceCtx "a1" lockedStore).error = none :=
  ⟨rfl, rfl,
   (CancelTransfer_contract bobCtx "a1" lockedStore lockedAsset pendingRequest rfl rfl).1
     (by decide),
   ((CancelTransfer_contract aliceCtx "a1" lockedStore lockedAsset pendingRequest rfl rfl).2
     rfl rfl).1⟩

/-- C5: when the request stored at `"transfer_" + a` has a status other than
`Pending`, `CompleteTransfer a` fails with `InvalidState` for every caller, sets no
event and leaves the world state unchanged. -/
theorem CompleteTransfer_not_pending (ctx : Ctx) (a : String) (s : Store)
    (req : TransferRequest) (h2 : readTransfer s a = some req)
    (h3 : req.Status ≠ "Pending") :
    (CompleteTransfer ctx a s).error = some .invalidTransferStatus ∧
    (CompleteTransfer ctx a s).error.map ContractError.kind = some .InvalidState ∧
    (CompleteTransfer ctx a s).store = s ∧ (CompleteTransfer ctx a s).event = none := by
  unfold readTransfer at h2
  obtain ⟨j, hj, hreq⟩ := Option.map_eq_some'.mp h2
  subst hreq
  rw [CompleteTransfer_of_not_pending ctx a s j hj h3]
  exact ⟨rfl, rfl, rfl, rfl⟩

/-- Completing the already completed transfer of `a1` a second time fails. -/
theorem CompleteTransfer_not_pending_witness :
    readTransfer completedStore "a1" =
      some { pendingRequest with Status := "Completed" } ∧
    ({ pendingRequest with Status := "Completed" } : TransferRequest).Status ≠ "Pending" ∧
    (CompleteTransfer bobCtx "a1" completedStore).error.map ContractError.kind =
      some .InvalidState ∧
    (CompleteTransfer bobCtx "a1" completedStore).store = completedStore :=
  ⟨rfl, by decide,
   (CompleteTransfer_not_pending bobCtx "a1" completedStore
      { pendingRequest with Status := "Completed" } rfl (by decide)).2.1,
   (CompleteTransfer_not_pending bobCtx "a1" completedStore
      { pendingRequest with Status := "Completed" } rfl (by decide)).2.2.1⟩

/-! ## Content edits -/

/-- C6 as stated fails: on the `Locked` asset `a1` of `alice`, `UpdateAsset` by
`bob` returns "only the owner can update the asset", a `Forbidden` error and not
`InvalidState`. -/
theorem UpdateAsset_locked_by_other_is_forbidden :
    ReadAsset lockedStore "a1" = .ok lockedAsset ∧ lockedAsset.Status = "Locked" ∧
    (UpdateAsset bobCtx "a1" "deed" "ipfs://a1" "Active" ["public"] lockedStore).error =
      some .onlyOwnerCanUpdate ∧
    (UpdateAsset bobCtx "a1" "deed" "ipfs://a1" "Active" ["public"] lockedStore).error.map
      ContractError.kind ≠ some .InvalidState :=
  ⟨rfl, rfl, rfl, by decide⟩

/-- C6, amended: on a `Locked` asset `UpdateAsset` fails for every caller and all
arguments and leaves the world state unchanged; the error is `InvalidState` when
the caller owns the asset and `Forbidden` when not (the owner check comes
first). -/
theorem UpdateAsset_locked (ctx : Ctx) (id name metaUrl status : String)
    (views : List String) (s : Store) (asset : Asset) (h : ReadAsset s id = .ok asset)
    (hl : asset.Status = "Locked") :
    (UpdateAsset ctx id name metaUrl status views s).error.map ContractError.kind =
      some (if asset.Owner = ctx.clientID then .InvalidState else .Forbidden) ∧
    (UpdateAsset ctx id name metaUrl status views s).store = s ∧
    (UpdateAsset ctx id name metaUrl status views s).event = none := by
  by_cases ho : asset.Owner = ctx.clientID
  · rw [UpdateAsset_of_locked ctx id name metaUrl status views s asset h ho hl, if_pos ho]
    exact ⟨rfl, rfl, rfl⟩
  · rw [UpdateAsset_of_not_owner ctx id name metaUrl status views s asset h ho, if_neg ho]
    exact ⟨rfl, rfl, rfl⟩

/-- The owner `alice` gets `InvalidState` on her `Locked` asset `a1`. -/
theorem UpdateAsset_locked_witness :
    ReadAsset lockedStore "a1" = .ok lockedAsset ∧ lockedAsset.Status = "Locked" ∧
    (UpdateAsset aliceCtx "a1" "deed" "ipfs://a1" "Active" ["public"] lockedStore).error.map
      ContractError.kind = some .InvalidState :=
  ⟨rfl, rfl,
   (UpdateAsset_locked aliceCtx "a1" "deed" "ipfs://a1" "Active" ["public"] lockedStore
      lockedAsset rfl rfl).1⟩

/-- C7: when an asset is stored at `id` and the caller is not its owner,
`UpdateAsset` fails with `Forbidden` for all arguments and every status of the
asset, sets no event and leaves the world state unchanged. -/
theorem UpdateAsset_not_owner (ctx : Ctx) (id name metaUrl status : String)
    (views : List String) (s : Store) (asset : Asset) (h : ReadAsset s id = .ok asset)
    (ho : asset.Owner ≠ ctx.clientID) :
    (UpdateAsset ctx id name metaUrl status views s).error = some .onlyOwnerCanUpdate ∧
    (UpdateAsset ctx id name metaUrl status views s).error.map ContractError.kind =
      some .Forbidden ∧
    (UpdateAsset ctx id name metaUrl status views s).store = s ∧
    (UpdateAsset ctx id name metaUrl status views s).event = none := by
  rw [UpdateAsset_of_not_owner ctx id name metaUrl status views s asset h ho]
  exact ⟨rfl, rfl, rfl, rfl⟩

/-- The identity `bob` may not edit the `Active` asset `a1` of `alice`. -/
theorem UpdateAsset_not_owner_witness :
    ReadAsset createdStore "a1" = .ok createdAsset ∧
    createdAsset.Owner ≠ bobCtx.clientID ∧
    (UpdateAsset bobCtx "a1" "x" "y" "Active" [] createdStore).error.map ContractError.kind =
      some .Forbidden ∧
    (UpdateAsset bobCtx "a1" "x" "y" "Active" [] createdStore).store = createdStore :=
  ⟨rfl, by decide,
   (UpdateAsset_not_owner bobCtx "a1" "x" "y" "Active" [] createdStore createdAsset rfl
      (by decide)).2.1,
   (UpdateAsset_not_owner bobCtx "a1" "x" "y" "Active" [] createdStore createdAsset rfl
      (by decide)).2.2.1⟩

/-! ## Transactions -/

theorem Call.apply_of_fail {ctx : Ctx} {c : Call} {s : Store} {e : ContractError}
    (h : c.exec ctx s = Outcome.fail s e) :
    c.apply ctx s = s ∧ c.succeeds ctx s = false := by
  simp [Call.apply, Call.succeeds, h, Outcome.fail]

theorem Call.apply_of_ok (ctx : Ctx) (c : Call) (s : Store)
    (h : (c.exec ctx s).error = none) :
    c.apply ctx s = (c.exec ctx s).store ∧ c.succeeds ctx s = true := by
  simp [Call.apply, Call.succeeds, h]

/-! ## The version counter -/

/-- One asset operation on a stored asset leaves an asset stored, with the
sequence number raised by one exactly when the operation is a successful
`UpdateAsset`. -/
theorem AssetOp_step (ctx : Ctx) (a : String) (op : AssetOp) (s : Store) (asset : Asset)
    (h : ReadAsset s a = .ok asset) :
    ∃ asset1, ReadAsset ((op.toCall a).apply ctx s) a = .ok asset1 ∧
      asset1.Sequence =
        (asset.Sequence +
          (if (op.toCall a).isUpdate && (op.toCall a).succeeds ctx s then 1 else 0))
          % 2 ^ 64 := by
  have hrange := ReadAsset_range h
  have hmod : asset.Sequence % 2 ^ 64 = asset.Sequence := Nat.mod_eq_of_lt hrange.1
  have hlt : (asset.Sequence + 1) % 2 ^ 64 < 2 ^ 64 := Nat.mod_lt _ (by norm_num)
  -- a failed invocation leaves the asset as it is
  have failed : ∀ (c : Call) (e : ContractError), c.exec ctx s = Outcome.fail s e →
      ∃ asset1, ReadAsset (c.apply ctx s) a = .ok asset1 ∧
        asset1.Sequence =
          (asset.Sequence + (if c.isUpdate && c.succeeds ctx s then 1 else 0)) % 2 ^ 64 := by
    intro c e he
    obtain ⟨h1, h2⟩ := Call.apply_of_fail he
    rw [h1, h2]
    exact ⟨asset, h, by simpa using hmod.symm⟩
  -- a successful transfer operation writes the asset with its sequence number kept
  have moved : ∀ (c : Call) (v : JObj) (x : Asset) (ev : Option Event),
      c.exec ctx s =
        { store := PutState (transferKey a) v (PutState a (marshalAsset x) s),
          event := ev, error := none } →
      c.isUpdate = false → x.Sequence = asset.Sequence →
      (-(2 ^ 63) ≤ x.UpdatedAt ∧ x.UpdatedAt < 2 ^ 63) →
      ∃ asset1, ReadAsset (c.apply ctx s) a = .ok asset1 ∧
        asset1.Sequence =
          (asset.Sequence + (if c.isUpdate && c.succeeds ctx s then 1 else 0)) % 2 ^ 64 := by
    intro c v x ev he hu hx hr
    obtain ⟨h1, _⟩ := Call.apply_of_ok ctx c s (by rw [he])
    rw [h1, he, hu]
    refine ⟨x, ReadAsset_after_transfer_writes s a x v (hx ▸ hrange.1) hr, ?_⟩
    simpa [hx] using hmod.symm
  -- a successful edit writes the asset with its sequence number raised
  have edited : ∀ (c : Call) (x : Asset) (ev : Option Event),
      c.exec ctx s =
        { store := PutState a (marshalAsset x) s, event := ev, error := none } →
      c.isUpdate = true → x.Sequence = (asset.Sequence + 1) % 2 ^ 64 →
      (-(2 ^ 63) ≤ x.UpdatedAt ∧ x.UpdatedAt < 2 ^ 63) →
      ∃ asset1, ReadAsset (c.apply ctx s) a = .ok asset1 ∧
        asset1.Sequence =
          (asset.Sequence + (if c.isUpdate && c.succeeds ctx s then 1 else 0)) % 2 ^ 64 := by
    intro c x ev he hu hx hr
    obtain ⟨h1, h2⟩ := Call.apply_of_ok ctx c s (by rw [he])
    rw [h1, h2, he, hu]
    refine ⟨x, ReadAsset_PutState_self s a x (hx ▸ hlt) hr, ?_⟩
    simpa using hx
  cases op with
  | update name metaUrl status views =>
    by_cases ho : asset.Owner = ctx.clientID
    · by_cases hl : asset.Status = "Locked"
      · exact failed _ _ (UpdateAsset_of_locked ctx a name metaUrl status views s asset h ho hl)
      · have he := UpdateAsset_of_owner ctx a name metaUrl status views s asset h ho hl
        exact edited (.updateAsset a name metaUrl status views) _ _ he rfl rfl ctx.now_int64
    · exact failed _ _ (UpdateAsset_of_not_owner ctx a name metaUrl status views s asset h ho)
  | initiate buyer =>
    by_cases ho : asset.Owner = ctx.clientID
    · by_cases hl : asset.Status = "Locked"
      · exact failed _ _ (InitiateTransfer_of_locked ctx a buyer s asset h ho hl)
      · exact moved (.initiateTransfer a buyer) _ _ _
            (InitiateTransfer_of_owner ctx a buyer s asset h ho hl) rfl rfl ctx.now_int64
    · exact failed _ _ (InitiateTransfer_of_not_owner ctx a buyer s asset h ho)
  | complete =>
    cases hj : GetState s (transferKey a) with
    | none => exact failed _ _ (CompleteTransfer_of_absent ctx a s hj)
    | some j =>
      by_cases hp : (unmarshalTransferRequest j).Status = "Pending"
      · exact moved (.completeTransfer a) _ _ _
            (CompleteTransfer_of_pending ctx a s j asset hj hp h) rfl rfl ctx.now_int64
      · exact failed _ _ (CompleteTransfer_of_not_pending ctx a s j hj hp)
  | reject =>
    cases hj : GetState s (transferKey a) with
    | none => exact failed _ _ (RejectTransfer_of_absent a s hj)
    | some j =>
      by_cases hp : (unmarshalTransferRequest j).Status = "Pending"
      · exact moved (.rejectTransfer a) _ _ _
            (RejectTransfer_of_pending a s j asset hj hp h) rfl rfl hrange.2
      · exact failed _ _ (RejectTransfer_of_not_pending a s j hj hp)
  | cancel =>
    cases hj : GetState s (transferKey a) with
    | none => exact failed _ _ (CancelTransfer_of_absent ctx a s hj)
    | some j =>
      by_cases hs : (unmarshalTransferRequest j).SellerID = ctx.clientID
      · by_cases hp : (unmarshalTransferRequest j).Status = "Pending"
        · exact moved (.cancelTransfer a) _ _ _
            (CancelTransfer_of_pending ctx a s j asset hj hs hp h) rfl rfl hrange.2
        · exact failed _ _ (CancelTransfer_of_not_pending ctx a s j hj hs hp)
      · exact failed _ _ (CancelTransfer_of_not_seller ctx a s j hj hs)

/-- Along any run of asset operations on a stored asset the sequence number
counts the successful `UpdateAsset` invocations. -/
theorem sequence_along_run (a : String) (ops : List (Ctx × AssetOp)) :
    ∀ (s : Store) (asset : Asset), ReadAsset s a = .ok asset →
    ∃ asset1, ReadAsset (runCalls (callsOn a ops) s) a = .ok asset1 ∧
      asset1.Sequence =
        (asset.Sequence + countSuccessful Call.isUpdate (callsOn a ops) s) % 2 ^ 64 := by
  induction ops with
  | nil =>
    intro s asset h
    have hmod : asset.Sequence % 2 ^ 64 = asset.Sequence :=
      Nat.mod_eq_of_lt (ReadAsset_range h).1
    exact ⟨asset, h, by simpa [callsOn, countSuccessful] using hmod.symm⟩
  | cons p rest ih =>
    intro s asset h
    obtain ⟨ctx, op⟩ := p
    obtain ⟨asset1, h1, hs1⟩ := AssetOp_step ctx a op s asset h
    obtain ⟨asset2, h2, hs2⟩ := ih _ asset1 h1
    refine ⟨asset2, h2, ?_⟩
    simp only [callsOn, List.map_cons, countSuccessful] at hs2 ⊢
    rw [hs2, hs1]
    generalize (if ((AssetOp.toCall a op).isUpdate &&
      Call.succeeds ctx (AssetOp.toCall a op) s) = true then 1 else 0) = d
    generalize countSuccessful Call.isUpdate
      (List.map (fun p => (p.1, AssetOp.toCall a p.2)) rest)
      (Call.apply ctx (AssetOp.toCall a op) s) = n
    omega

/-- C8 as stated fails: after `alice` created `a1` (sequence 1), her
`InitiateTransfer` and the `CompleteTransfer` of `bob` both succeed, so one
owner-reassigning call succeeded, and the stored sequence is still 1, not 2. -/
theorem sequence_kept_by_CompleteTransfer :
    ReadAsset createdStore "a1" = .ok createdAsset ∧ createdAsset.Sequence = 1 ∧
    countSuccessful Call.isUpdateOrComplete (callsOn "a1" handoverOps) createdStore = 1 ∧
    (∃ asset, ReadAsset (runCalls (callsOn "a1" handoverOps) createdStore) "a1" = .ok asset ∧
      asset.Owner = "bob" ∧ asset.Sequence = 1 ∧
      asset.Sequence ≠
        1 + countSuccessful Call.isUpdateOrComplete (callsOn "a1" handoverOps) createdStore) :=
  ⟨rfl, rfl, by decide, ⟨_, rfl, rfl, rfl, by decide⟩⟩

/-- C8, amended: for an asset created by `CreateAsset` at a free key and every
sequence of `UpdateAsset`, `InitiateTransfer`, `CompleteTransfer`,
`RejectTransfer` and `CancelTransfer` invocations on it, by any callers, the asset
stays stored and its sequence number is `1 + N` (as a `uint64`, so modulo `2^64`),
where `N` counts the successful `UpdateAsset` invocations only: the transfer
operations, `CompleteTransfer` among them, leave the sequence number as it is. -/
theorem sequence_counts_updates (ctx : Ctx) (a name metaUrl : String) (views : List String)
    (s : Store) (ops : List (Ctx × AssetOp)) (habs : GetState s a = none) :
    ∃ asset,
      ReadAsset (runCalls (callsOn a ops) (CreateAsset ctx a name metaUrl views s).store) a =
        .ok asset ∧
      asset.Sequence =
        (1 + countSuccessful Call.isUpdate (callsOn a ops)
          (CreateAsset ctx a name metaUrl views s).store) % 2 ^ 64 :=
  sequence_along_run a ops _ _ (CreateAsset_reads_back ctx a name metaUrl views s habs).2

/-- Two edits by `alice` around a completed transfer to `bob`: the second edit is
refused (she no longer owns `a1`), so one edit counts and the sequence is 2. -/
theorem sequence_counts_updates_witness :
    GetState [] "a1" = none ∧
    countSuccessful Call.isUpdate (callsOn "a1" editOps) createdStore = 1 ∧
    (ReadAsset (runCalls (callsOn "a1" editOps) createdStore) "a1").toOption.map
      Asset.Sequence = some 2 ∧
    ∃ asset,
      ReadAsset (runCalls (callsOn "a1" editOps)
        (CreateAsset aliceCtx "a1" "deed" "ipfs://a1" ["public"] []).store) "a1" = .ok asset ∧
      asset.Sequence =
        (1 + countSuccessful Call.isUpdate (callsOn "a1" editOps)
          (CreateAsset aliceCtx "a1" "deed" "ipfs://a1" ["public"] []).store) % 2 ^ 64 :=
  ⟨rfl, by decide, by decide,
   sequence_counts_updates aliceCtx "a1" "deed" "ipfs://a1" ["public"] [] editOps rfl⟩

/-! ## The range query -/

/-- A `User` record decodes as an `Asset` without error, with the user's id. -/
theorem unmarshalAsset_marshalUser (u : User) (h1 : u.Sequence < 2 ^ 64)
    (h2 : -(2 ^ 63) ≤ u.UpdatedAt ∧ u.UpdatedAt < 2 ^ 63) :
    unmarshalAsset (marshalUser u) =
      some { ID := u.ID, Name := "", Owner := "", MetaUrl := "", Status := u.Status,
             Views := [], Sequence := u.Sequence, LastTxid := "", UpdatedAt := u.UpdatedAt,
             UpdatedBy := "" } := by
  have h3 : u.Sequence < 18446744073709551616 := by omega
  have h4 : -9223372036854775808 ≤ u.UpdatedAt ∧ u.UpdatedAt < 9223372036854775808 := by
    constructor <;> omega
  simp [unmarshalAsset, marshalUser, JObj.field, decodeString, decodeStrings, decodeUint64,
    decodeInt64, h3, h4]

/-- A `TransferRequest` record decodes as an `Asset` with an empty id. -/
theorem unmarshalAsset_marshalTransferRequest (r : TransferRequest) :
    unmarshalAsset (marshalTransferRequest r) =
      some { ID := "", Name := "", Owner := "", MetaUrl := "", Status := r.Status,
             Views := [], Sequence := 0, LastTxid := "", UpdatedAt := 0, UpdatedBy := "" } := by
  simp [unmarshalAsset, marshalTransferRequest, JObj.field, decodeString, decodeStrings,
    decodeUint64, decodeInt64]

/-- C9 on the code: in the world state left by two `CreateUser`, three
`CreateAsset` and one `InitiateTransfer`, whose six keys hold 2 users, 3 assets
and 1 transfer request, `GetAllAssets` returns 5 entries, not 3: the two `User`
records decode as assets with the non-empty ids `u1` and `u2` and pass the
filter. -/
theorem GetAllAssets_returns_users :
    mixedStore.map Prod.fst = ["a1", "a2", "a3", "transfer_a1", "u1", "u2"] ∧
    (ReadUser mixedStore "u1").toOption.map User.WalletID = some "alice" ∧
    (ReadUser mixedStore "u2").toOption.map User.WalletID = some "bob" ∧
    (GetAllAssets mixedStore).length = 5 ∧
    (GetAllAssets mixedStore).map Asset.ID = ["a1", "a2", "a3", "u1", "u2"] :=
  ⟨by decide, by decide, by decide, by decide, by decide⟩

/-! ## Transfer keys -/

theorem startsWithChars_append (l m : List Char) : startsWithChars l (l ++ m) = true := by
  induction l with
  | nil => cases m <;> rfl
  | cons c cs ih => simp [startsWithChars, ih]

theorem isTransferKey_transferKey (t : String) : isTransferKey (transferKey t) = true := by
  unfold isTransferKey transferKey
  rw [String.data_append]
  exact startsWithChars_append _ _

theorem ne_transferKey_of_plain {k : String} (h : isTransferKey k = false) (t : String) :
    k ≠ transferKey t := by
  intro hk
  rw [hk, isTransferKey_transferKey] at h
  cases h

theorem Call.target_plain {c : Call} (h : c.regular = true) : isTransferKey c.target = false := by
  cases c <;> simp_all [Call.regular, Call.target]

theorem unmarshalAsset_status {o : JObj} {y : Asset} (h : unmarshalAsset o = some y) :
    decodeString (o.field "status") = some y.Status := by
  simp only [unmarshalAsset, Option.bind_eq_bind, Option.bind_eq_some, Option.pure_def,
    Option.some.injEq] at h
  obtain ⟨_, _, _, _, _, _, _, _, st, hst, _, _, _, _, _, _, _, _, _, _, rfl⟩ := h
  exact hst

theorem status_of_marshalAsset {x y : Asset} (h : unmarshalAsset (marshalAsset x) = some y) :
    y.Status = x.Status := by
  have h1 := unmarshalAsset_status h
  simpa [marshalAsset, JObj.field, decodeString] using h1.symm

theorem status_of_marshalUser {u : User} {y : Asset}
    (h : unmarshalAsset (marshalUser u) = some y) : y.Status = u.Status := by
  have h1 := unmarshalAsset_status h
  simpa [marshalUser, JObj.field, decodeString] using h1.symm

theorem status_of_marshalTransferRequest {r : TransferRequest} {y : Asset}
    (h : unmarshalAsset (marshalTransferRequest r) = some y) : y.Status = r.Status := by
  have h1 := unmarshalAsset_status h
  simpa [marshalTransferRequest, JObj.field, decodeString] using h1.symm

theorem ReadAsset_ok_iff {s : Store} {id : String} {asset : Asset} :
    ReadAsset s id = .ok asset ↔
      ∃ j, GetState s id = some j ∧ unmarshalAsset j = some asset := by
  constructor
  · intro h
    unfold ReadAsset at h
    split at h
    · cases h
    · rename_i j hj
      split at h
      · cases h
      · rename_i y hy
        injection h with h
        subst h
        exact ⟨j, hj, hy⟩
  · rintro ⟨j, hj, hy⟩
    exact ReadAsset_of_GetState hj hy

/-! ## Locked assets and pending requests -/

/-- Writing, under a key that is no transfer key, a record that does not decode as
a `Locked` asset keeps both invariants. -/
theorem invariants_PutState {s : Store} {k : String} {v : JObj}
    (hk : isTransferKey k = false)
    (hv : ∀ y, unmarshalAsset v = some y → y.Status ≠ "Locked")
    (h1 : RequestsWellFormed s) (h2 : LockedHavePending s) :
    RequestsWellFormed (PutState k v s) ∧ LockedHavePending (PutState k v s) := by
  constructor
  · intro t j hj
    rw [GetState_PutState_ne s k _ v (ne_transferKey_of_plain hk t)] at hj
    exact h1 t j hj
  · intro id asset hr hl
    by_cases hid : k = id
    · subst hid
      obtain ⟨j, hj, hy⟩ := ReadAsset_ok_iff.mp hr
      rw [GetState_PutState_self] at hj
      injection hj with hj
      subst hj
      exact absurd hl (hv asset hy)
    · rw [ReadAsset_PutState_ne s k id v hid] at hr
      obtain ⟨req, hreq, hp⟩ := h2 id asset hr hl
      refine ⟨req, ?_, hp⟩
      unfold readTransfer at hreq ⊢
      rw [GetState_PutState_ne s k _ v (ne_transferKey_of_plain hk id)]
      exact hreq

/-- Deleting a key that is no transfer key keeps both invariants. -/
theorem invariants_DelState {s : Store} {k : String} (hk : isTransferKey k = false)
    (h1 : RequestsWellFormed s) (h2 : LockedHavePending s) :
    RequestsWellFormed (DelState k s) ∧ LockedHavePending (DelState k s) := by
  constructor
  · intro t j hj
    rw [GetState_DelState_ne s k _ (ne_transferKey_of_plain hk t)] at hj
    exact h1 t j hj
  · intro id asset hr hl
    obtain ⟨j, hj, hy⟩ := ReadAsset_ok_iff.mp hr
    by_cases hid : k = id
    · subst hid
      rw [GetState_DelState_self] at hj
      cases hj
    · rw [GetState_DelState_ne s k id hid] at hj
      obtain ⟨req, hreq, hp⟩ := h2 id asset (ReadAsset_of_GetState hj hy) hl
      refine ⟨req, ?_, hp⟩
      unfold readTransfer at hreq ⊢
      rw [GetState_DelState_ne s k _ (ne_transferKey_of_plain hk id)]
      exact hreq

/-- The two writes of a transfer operation on an asset whose key is no transfer
key keep both invariants, when the request written is not `Locked` and is
`Pending` if the asset written is `Locked`. -/
theorem invariants_transfer_writes {s : Store} {a : String} {x : Asset}
    {r : TransferRequest} (ha : isTransferKey a = false) (hr : r.Status ≠ "Locked")
    (hx : x.Status = "Locked" → r.Status = "Pending")
    (h1 : RequestsWellFormed s) (h2 : LockedHavePending s) :
    RequestsWellFormed
      (PutState (transferKey a) (marshalTransferRequest r) (PutState a (marshalAsset x) s)) ∧
    LockedHavePending
      (PutState (transferKey a) (marshalTransferRequest r) (PutState a (marshalAsset x) s)) := by
  constructor
  · intro t j hj
    by_cases ht : transferKey a = transferKey t
    · rw [← ht, GetState_PutState_self] at hj
      injection hj with hj
      exact ⟨r, hj.symm, hr⟩
    · rw [GetState_PutState_ne _ _ _ _ ht,
        GetState_PutState_ne s a _ _ (ne_transferKey_of_plain ha t)] at hj
      exact h1 t j hj
  · intro id asset hread hl
    obtain ⟨j, hj, hy⟩ := ReadAsset_ok_iff.mp hread
    by_cases hid1 : transferKey a = id
    · subst hid1
      rw [GetState_PutState_self] at hj
      injection hj with hj
      subst hj
      rw [status_of_marshalTransferRequest hy] at hl
      exact absurd hl hr
    · rw [GetState_PutState_ne _ _ _ _ hid1] at hj
      by_cases hid2 : a = id
      · subst hid2
        rw [GetState_PutState_self] at hj
        injection hj with hj
        subst hj
        rw [status_of_marshalAsset hy] at hl
        refine ⟨r, ?_, hx hl⟩
        unfold readTransfer
        rw [GetState_PutState_self, Option.map_some', unmarshalTransferRequest_marshal]
      · rw [GetState_PutState_ne s a id _ hid2] at hj
        obtain ⟨req, hreq, hp⟩ := h2 id asset (ReadAsset_of_GetState hj hy) hl
        refine ⟨req, ?_, hp⟩
        unfold readTransfer at hreq ⊢
        have hne : transferKey a ≠ transferKey id := fun h => hid2 (transferKey_injective h)
        rw [GetState_PutState_ne _ _ _ _ hne,
          GetState_PutState_ne s a _ _ (ne_transferKey_of_plain ha id)]
        exact hreq

theorem CreateUser_of_present (ctx : Ctx) (id name role : String) (s : Store)
    (h : GetState s id ≠ none) :
    CreateUser ctx id name role s = Outcome.fail s (.userAlreadyExists id) := by
  have h1 : (GetState s id).isSome = true := Option.isSome_iff_ne_none.mpr h
  simp [CreateUser, UserExists, h1]

theorem CreateUser_of_absent (ctx : Ctx) (id name role : String) (s : Store)
    (h : GetState s id = none) :
    CreateUser ctx id name role s =
      { store := PutState id (marshalUser
          { ID := id, WalletID := ctx.clientID, Role := role, Status := "Active",
            Sequence := 1, UpdatedAt := ctx.now }) s,
        event := none, error := none } := by
  simp [CreateUser, UserExists, h]

theorem DeleteAsset_of_absent (id : String) (s : Store) (h : GetState s id = none) :
    DeleteAsset id s = Outcome.fail s (.assetDoesNotExist id) := by
  simp [DeleteAsset, AssetExists, h]

theorem DeleteAsset_of_present (id : String) (s : Store) (h : GetState s id ≠ none) :
    DeleteAsset id s =
      { store := DelState id s, event := some ⟨"AssetDeleted", .raw id⟩, error := none } := by
  have h1 : (GetState s id).isSome = true := Option.isSome_iff_ne_none.mpr h
  simp [DeleteAsset, AssetExists, h1]

theorem Call.apply_eq_of_fail (ctx : Ctx) (c : Call) {s : Store} {e : ContractError}
    (h : c.exec ctx s = Outcome.fail s e) : c.apply ctx s = s :=
  (Call.apply_of_fail h).1

theorem Call.apply_eq_of_ok (ctx : Ctx) (c : Call) {s s1 : Store} {ev : Option Event}
    (h : c.exec ctx s = { store := s1, event := ev, error := none }) : c.apply ctx s = s1 := by
  rw [(Call.apply_of_ok ctx c s (by rw [h])).1, h]

/-- A regular invocation keeps both invariants. -/
theorem invariants_step (ctx : Ctx) (c : Call) (s : Store) (hc : c.regular = true)
    (h1 : RequestsWellFormed s) (h2 : LockedHavePending s) :
    RequestsWellFormed (c.apply ctx s) ∧ LockedHavePending (c.apply ctx s) := by
  have hk := Call.target_plain hc
  have hAL : ("Active" : String) ≠ "Locked" := by decide
  have hPL : ("Pending" : String) ≠ "Locked" := by decide
  have hCL : ("Completed" : String) ≠ "Locked" := by decide
  have hRL : ("Rejected" : String) ≠ "Locked" := by decide
  have hXL : ("Cancelled" : String) ≠ "Locked" := by decide
  cases c with
  | createUser id name role =>
    by_cases hg : GetState s id = none
    · rw [Call.apply_eq_of_ok ctx (.createUser id name role) (CreateUser_of_absent ctx id name role s hg)]
      refine invariants_PutState hk (fun y hy => ?_) h1 h2
      rw [status_of_marshalUser hy]
      exact hAL
    · rw [Call.apply_eq_of_fail ctx (.createUser id name role) (CreateUser_of_present ctx id name role s hg)]
      exact ⟨h1, h2⟩
  | createAsset id name metaUrl views =>
    by_cases hg : GetState s id = none
    · rw [Call.apply_eq_of_ok ctx (.createAsset id name metaUrl views) (CreateAsset_of_absent ctx id name metaUrl views s hg)]
      refine invariants_PutState hk (fun y hy => ?_) h1 h2
      rw [status_of_marshalAsset hy]
      exact hAL
    · rw [Call.apply_eq_of_fail ctx (.createAsset id name metaUrl views) (CreateAsset_of_present ctx id name metaUrl views s hg)]
      exact ⟨h1, h2⟩
  | updateAsset id name metaUrl status views =>
    have hst : status ≠ "Locked" := by
      simp only [Call.regular, Bool.and_eq_true, decide_eq_true_eq] at hc
      exact hc.2
    cases hr : ReadAsset s id with
    | error e =>
      rw [Call.apply_eq_of_fail ctx (.updateAsset id name metaUrl status views) (UpdateAsset_of_error ctx id name metaUrl status views s e hr)]
      exact ⟨h1, h2⟩
    | ok asset =>
      by_cases ho : asset.Owner = ctx.clientID
      · by_cases hl : asset.Status = "Locked"
        · rw [Call.apply_eq_of_fail ctx (.updateAsset id name metaUrl status views)
            (UpdateAsset_of_locked ctx id name metaUrl status views s asset hr ho hl)]
          exact ⟨h1, h2⟩
        · rw [Call.apply_eq_of_ok ctx (.updateAsset id name metaUrl status views)
            (UpdateAsset_of_owner ctx id name metaUrl status views s asset hr ho hl)]
          refine invariants_PutState hk (fun y hy => ?_) h1 h2
          rw [status_of_marshalAsset hy]
          exact hst
      · rw [Call.apply_eq_of_fail ctx (.updateAsset id name metaUrl status views)
          (UpdateAsset_of_not_owner ctx id name metaUrl status views s asset hr ho)]
        exact ⟨h1, h2⟩
  | deleteAsset id =>
    by_cases hg : GetState s id = none
    · rw [Call.apply_eq_of_fail ctx (.deleteAsset id) (DeleteAsset_of_absent id s hg)]
      exact ⟨h1, h2⟩
    · rw [Call.apply_eq_of_ok ctx (.deleteAsset id) (DeleteAsset_of_present id s hg)]
      exact invariants_DelState hk h1 h2
  | initiateTransfer a buyer =>
    cases hr : ReadAsset s a with
    | error e =>
      rw [Call.apply_eq_of_fail ctx (.initiateTransfer a buyer) (InitiateTransfer_of_error ctx a buyer s e hr)]
      exact ⟨h1, h2⟩
    | ok asset =>
      by_cases ho : asset.Owner = ctx.clientID
      · by_cases hl : asset.Status = "Locked"
        · rw [Call.apply_eq_of_fail ctx (.initiateTransfer a buyer) (InitiateTransfer_of_locked ctx a buyer s asset hr ho hl)]
          exact ⟨h1, h2⟩
        · rw [Call.apply_eq_of_ok ctx (.initiateTransfer a buyer) (InitiateTransfer_of_owner ctx a buyer s asset hr ho hl)]
          exact invariants_transfer_writes hk hPL (fun _ => rfl) h1 h2
      · rw [Call.apply_eq_of_fail ctx (.initiateTransfer a buyer) (InitiateTransfer_of_not_owner ctx a buyer s asset hr ho)]
        exact ⟨h1, h2⟩
  | completeTransfer a =>
    cases hj : GetState s (transferKey a) with
    | none =>
      rw [Call.apply_eq_of_fail ctx (.completeTransfer a) (CompleteTransfer_of_absent ctx a s hj)]
      exact ⟨h1, h2⟩
    | some j =>
      by_cases hp : (unmarshalTransferRequest j).Status = "Pending"
      · cases hr : ReadAsset s a with
        | error e =>
          rw [Call.apply_eq_of_fail ctx (.completeTransfer a) (CompleteTransfer_of_no_asset ctx a s j e hj hp hr)]
          exact ⟨h1, h2⟩
        | ok asset =>
          rw [Call.apply_eq_of_ok ctx (.completeTransfer a) (CompleteTransfer_of_pending ctx a s j asset hj hp hr)]
          exact invariants_transfer_writes hk hCL
            (fun h => absurd h hAL) h1 h2
      · rw [Call.apply_eq_of_fail ctx (.completeTransfer a) (CompleteTransfer_of_not_pending ctx a s j hj hp)]
        exact ⟨h1, h2⟩
  | rejectTransfer a =>
    cases hj : GetState s (transferKey a) with
    | none =>
      rw [Call.apply_eq_of_fail ctx (.rejectTransfer a) (RejectTransfer_of_absent a s hj)]
      exact ⟨h1, h2⟩
    | some j =>
      by_cases hp : (unmarshalTransferRequest j).Status = "Pending"
      · cases hr : ReadAsset s a with
        | error e =>
          rw [Call.apply_eq_of_fail ctx (.rejectTransfer a) (RejectTransfer_of_no_asset a s j e hj hp hr)]
          exact ⟨h1, h2⟩
        | ok asset =>
          rw [Call.apply_eq_of_ok ctx (.rejectTransfer a) (RejectTransfer_of_pending a s j asset hj hp hr)]
          exact invariants_transfer_writes hk hRL
            (fun h => absurd h hAL) h1 h2
      · rw [Call.apply_eq_of_fail ctx (.rejectTransfer a) (RejectTransfer_of_not_pending a s j hj hp)]
        exact ⟨h1, h2⟩
  | cancelTransfer a =>
    cases hj : GetState s (transferKey a) with
    | none =>
      rw [Call.apply_eq_of_fail ctx (.cancelTransfer a) (CancelTransfer_of_absent ctx a s hj)]
      exact ⟨h1, h2⟩
    | some j =>
      by_cases hs : (unmarshalTransferRequest j).SellerID = ctx.clientID
      · by_cases hp : (unmarshalTransferRequest j).Status = "Pending"
        · cases hr : ReadAsset s a with
          | error e =>
            rw [Call.apply_eq_of_fail ctx (.cancelTransfer a) (CancelTransfer_of_no_asset ctx a s j e hj hs hp hr)]
            exact ⟨h1, h2⟩
          | ok asset =>
            rw [Call.apply_eq_of_ok ctx (.cancelTransfer a) (CancelTransfer_of_pending ctx a s j asset hj hs hp hr)]
            exact invariants_transfer_writes hk hXL
              (fun h => absurd h hAL) h1 h2
        · rw [Call.apply_eq_of_fail ctx (.cancelTransfer a) (CancelTransfer_of_not_pending ctx a s j hj hs hp)]
          exact ⟨h1, h2⟩
      · rw [Call.apply_eq_of_fail ctx (.cancelTransfer a) (CancelTransfer_of_not_seller ctx a s j hj hs)]
        exact ⟨h1, h2⟩

/-- Both invariants hold in every state reachable by regular invocations. -/
theorem invariants_of_reachable {s : Store}
    (h : ReachableBy (fun _ c => c.regular = true) s) :
    RequestsWellFormed s ∧ LockedHavePending s := by
  induction h with
  | empty =>
    constructor
    · intro t j hj
      cases hj
    · intro id asset hr
      cases hr
  | step ctx c _ hc ih => exact invariants_step ctx c _ hc ih.1 ih.2

theorem ReachableBy.runCalls {P : Ctx → Call → Prop} (calls : List (Ctx × Call)) :
    ∀ s, ReachableBy P s → (∀ p ∈ calls, P p.1 p.2) → ReachableBy P (runCalls calls s) := by
  induction calls with
  | nil => intro s h _; exact h
  | cons p rest ih =>
    intro s h hp
    obtain ⟨ctx, c⟩ := p
    exact ih _ (ReachableBy.step ctx c h (hp (ctx, c) (List.mem_cons_self _ _)))
      (fun q hq => hp q (List.mem_cons_of_mem _ hq))

/-- C10 as stated fails, in two ways. The owner `alice` creates `a1` and sets its
status to `Locked` with `UpdateAsset`: the asset is `Locked` and no record is
stored at `transfer_a1`. And after `alice` initiated the transfer of `a1`,
`DeleteAsset "transfer_a1"` by `bob` succeeds and removes the request, while `a1`
stays `Locked`. -/
theorem locked_asset_without_request :
    (Reachable (runCalls selfLockCalls []) ∧
      (ReadAsset (runCalls selfLockCalls []) "a1").toOption.map Asset.Status =
        some "Locked" ∧
      GetState (runCalls selfLockCalls []) (transferKey "a1") = none) ∧
    (Reachable (runCalls orphanCalls []) ∧
      (DeleteAsset "transfer_a1" (runCalls lockCalls [])).error = none ∧
      (ReadAsset (runCalls orphanCalls []) "a1").toOption.map Asset.Status =
        some "Locked" ∧
      GetState (runCalls orphanCalls []) (transferKey "a1") = none) :=
  ⟨⟨ReachableBy.runCalls selfLockCalls [] ReachableBy.empty (fun _ _ => trivial),
    by decide, by decide⟩,
   ⟨ReachableBy.runCalls orphanCalls [] ReachableBy.empty (fun _ _ => trivial),
    by decide, by decide, by decide⟩⟩

/-- C10, amended: in every world state reachable from the empty one by
invocations whose id argument does not begin with `transfer_` and in which
`UpdateAsset` is never given the status `Locked`, every stored asset whose status
is `Locked` has a request stored at `"transfer_" + id` (one record, as a key holds
one), and that request has status `Pending`. -/
theorem locked_asset_has_pending_request (s : Store) (id : String) (asset : Asset)
    (h : ReachableBy (fun _ c => c.regular = true) s)
    (h1 : ReadAsset s id = .ok asset) (h2 : asset.Status = "Locked") :
    ∃ req, readTransfer s id = some req ∧ req.Status = "Pending" :=
  (invariants_of_reachable h).2 id asset h1 h2

/-- The asset `a1` locked by `InitiateTransfer` has its pending request. -/
theorem locked_asset_has_pending_request_witness :
    ReachableBy (fun _ c => c.regular = true) (runCalls lockCalls []) ∧
    ReadAsset (runCalls lockCalls []) "a1" = .ok lockedAsset ∧
    lockedAsset.Status = "Locked" ∧
    ∃ req, readTransfer (runCalls lockCalls []) "a1" = some req ∧ req.Status = "Pending" :=
  ⟨ReachableBy.runCalls lockCalls [] ReachableBy.empty (by decide), rfl, rfl,
   locked_asset_has_pending_request (runCalls lockCalls []) "a1" lockedAsset
     (ReachableBy.runCalls lockCalls [] ReachableBy.empty (by decide)) rfl rfl⟩

/-! ## The shape of every invocation -/

/-- Every invocation either returns an error before any write, or succeeds after
one write under its id argument, after deleting its id argument, or after the two
writes of a transfer operation. -/
theorem Call.exec_cases (ctx : Ctx) (c : Call) (s : Store) :
    (∃ e, c.exec ctx s = Outcome.fail s e) ∨
    (∃ v ev, c.exec ctx s = { store := PutState c.target v s, event := ev, error := none }) ∨
    (∃ id ev, c = .deleteAsset id ∧
      c.exec ctx s = { store := DelState id s, event := ev, error := none }) ∨
    (∃ v w ev, c.writes = [c.target, transferKey c.target] ∧
      c.exec ctx s =
        { store := PutState (transferKey c.target) w (PutState c.target v s),
          event := ev, error := none }) := by
  cases c with
  | createUser id name role =>
    by_cases hg : GetState s id = none
    · exact Or.inr (Or.inl ⟨_, _, CreateUser_of_absent ctx id name role s hg⟩)
    · exact Or.inl ⟨_, CreateUser_of_present ctx id name role s hg⟩
  | createAsset id name metaUrl views =>
    by_cases hg : GetState s id = none
    · exact Or.inr (Or.inl ⟨_, _, CreateAsset_of_absent ctx id name metaUrl views s hg⟩)
    · exact Or.inl ⟨_, CreateAsset_of_present ctx id name metaUrl views s hg⟩
  | updateAsset id name metaUrl status views =>
    cases hr : ReadAsset s id with
    | error e => exact Or.inl ⟨_, UpdateAsset_of_error ctx id name metaUrl status views s e hr⟩
    | ok asset =>
      by_cases ho : asset.Owner = ctx.clientID
      · by_cases hl : asset.Status = "Locked"
        · exact Or.inl
            ⟨_, UpdateAsset_of_locked ctx id name metaUrl status views s asset hr ho hl⟩
        · exact Or.inr (Or.inl
            ⟨_, _, UpdateAsset_of_owner ctx id name metaUrl status views s asset hr ho hl⟩)
      · exact Or.inl
          ⟨_, UpdateAsset_of_not_owner ctx id name metaUrl status views s asset hr ho⟩
  | deleteAsset id =>
    by_cases hg : GetState s id = none
    · exact Or.inl ⟨_, DeleteAsset_of_absent id s hg⟩
    · exact Or.inr (Or.inr (Or.inl ⟨id, _, rfl, DeleteAsset_of_present id s hg⟩))
  | initiateTransfer a buyer =>
    cases hr : ReadAsset s a with
    | error e => exact Or.inl ⟨_, InitiateTransfer_of_error ctx a buyer s e hr⟩
    | ok asset =>
      by_cases ho : asset.Owner = ctx.clientID
      · by_cases hl : asset.Status = "Locked"
        · exact Or.inl ⟨_, InitiateTransfer_of_locked ctx a buyer s asset hr ho hl⟩
        · exact Or.inr (Or.inr (Or.inr
            ⟨_, _, _, rfl, InitiateTransfer_of_owner ctx a buyer s asset hr ho hl⟩))
      · exact Or.inl ⟨_, InitiateTransfer_of_not_owner ctx a buyer s asset hr ho⟩
  | completeTransfer a =>
    cases hj : GetState s (transferKey a) with
    | none => exact Or.inl ⟨_, CompleteTransfer_of_absent ctx a s hj⟩
    | some j =>
      by_cases hp : (unmarshalTransferRequest j).Status = "Pending"
      · cases hr : ReadAsset s a with
        | error e => exact Or.inl ⟨_, CompleteTransfer_of_no_asset ctx a s j e hj hp hr⟩
        | ok asset =>
          exact Or.inr (Or.inr (Or.inr
            ⟨_, _, _, rfl, CompleteTransfer_of_pending ctx a s j asset hj hp hr⟩))
      · exact Or.inl ⟨_, CompleteTransfer_of_not_pending ctx a s j hj hp⟩
  | rejectTransfer a =>
    cases hj : GetState s (transferKey a) with
    | none => exact Or.inl ⟨_, RejectTransfer_of_absent a s hj⟩
    | some j =>
      by_cases hp : (unmarshalTransferRequest j).Status = "Pending"
      · cases hr : ReadAsset s a with
        | error e => exact Or.inl ⟨_, RejectTransfer_of_no_asset a s j e hj hp hr⟩
        | ok asset =>
          exact Or.inr (Or.inr (Or.inr
            ⟨_, _, _, rfl, RejectTransfer_of_pending a s j asset hj hp hr⟩))
      · exact Or.inl ⟨_, RejectTransfer_of_not_pending a s j hj hp⟩
  | cancelTransfer a =>
    cases hj : GetState s (transferKey a) with
    | none => exact Or.inl ⟨_, CancelTransfer_of_absent ctx a s hj⟩
    | some j =>
      by_cases hs : (unmarshalTransferRequest j).SellerID = ctx.clientID
      · by_cases hp : (unmarshalTransferRequest j).Status = "Pending"
        · cases hr : ReadAsset s a with
          | error e => exact Or.inl ⟨_, CancelTransfer_of_no_asset ctx a s j e hj hs hp hr⟩
          | ok asset =>
            exact Or.inr (Or.inr (Or.inr
              ⟨_, _, _, rfl, CancelTransfer_of_pending ctx a s j asset hj hs hp hr⟩))
        · exact Or.inl ⟨_, CancelTransfer_of_not_pending ctx a s j hj hs hp⟩
      · exact Or.inl ⟨_, CancelTransfer_of_not_seller ctx a s j hj hs⟩

theorem Call.target_mem_writes (c : Call) : c.target ∈ c.writes := by
  cases c <;> simp [Call.target, Call.writes]

/-- An invocation that returns an error has written nothing and set no event. -/
theorem Call.exec_atomic (ctx : Ctx) (c : Call) (s : Store)
    (h : (c.exec ctx s).error ≠ none) :
    (c.exec ctx s).store = s ∧ (c.exec ctx s).event = none := by
  rcases Call.exec_cases ctx c s with ⟨e, he⟩ | ⟨v, ev, he⟩ | ⟨id, ev, _, he⟩ | ⟨v, w, ev, _, he⟩
  · rw [he]
    exact ⟨rfl, rfl⟩
  · rw [he] at h
    exact absurd rfl h
  · rw [he] at h
    exact absurd rfl h
  · rw [he] at h
    exact absurd rfl h

/-- An invocation leaves every key outside its write set as it was. -/
theorem Call.exec_frame (ctx : Ctx) (c : Call) (s : Store) (k : String)
    (hk : k ∉ c.writes) :
    GetState (c.exec ctx s).store k = GetState s k := by
  have ht : c.target ≠ k := fun h => hk (h ▸ Call.target_mem_writes c)
  rcases Call.exec_cases ctx c s with ⟨e, he⟩ | ⟨v, ev, he⟩ | ⟨id, ev, hc, he⟩ | ⟨v, w, ev, hw, he⟩
  · rw [he]
    rfl
  · rw [he]
    exact GetState_PutState_ne s _ k v ht
  · rw [he]
    subst hc
    exact GetState_DelState_ne s id k ht
  · rw [he]
    have htk : transferKey c.target ≠ k := by
      intro h
      apply hk
      rw [hw, ← h]
      simp
    show GetState (PutState (transferKey c.target) w (PutState c.target v s)) k = _
    rw [GetState_PutState_ne _ _ k w htk, GetState_PutState_ne s _ k v ht]

/-- The committed state of an invocation is the state its writes left. -/
theorem Call.apply_eq_store (ctx : Ctx) (c : Call) (s : Store) :
    c.apply ctx s = (c.exec ctx s).store := by
  unfold Call.apply Call.succeeds
  cases h : (c.exec ctx s).error with
  | none => simp
  | some e =>
    have := (Call.exec_atomic ctx c s (by rw [h]; simp)).1
    simp [this]

/-! ## Errors, creation and deletion -/

/-- C15: error atomicity. With the ledger reads, writes and the event emission
themselves succeeding, whenever one of the eight operations (`CreateUser`,
`CreateAsset`, `UpdateAsset`, `DeleteAsset`, `InitiateTransfer`,
`CompleteTransfer`, `RejectTransfer`, `CancelTransfer`) returns an error, for any
world state, caller and arguments, the world state after the call is the one
before it and no event is set. -/
theorem error_atomicity (ctx : Ctx) (c : Call) (s : Store)
    (h : (c.exec ctx s).error ≠ none) :
    (c.exec ctx s).store = s ∧ (c.exec ctx s).event = none :=
  Call.exec_atomic ctx c s h

/-- The second `InitiateTransfer` on the locked asset `a1` fails and changes
nothing. -/
theorem error_atomicity_witness :
    ((Call.initiateTransfer "a1" "bob").exec aliceCtx lockedStore).error ≠ none ∧
    ((Call.initiateTransfer "a1" "bob").exec aliceCtx lockedStore).store = lockedStore ∧
    ((Call.initiateTransfer "a1" "bob").exec aliceCtx lockedStore).event = none :=
  ⟨by decide, error_atomicity aliceCtx (.initiateTransfer "a1" "bob") lockedStore (by decide)⟩

/-- C16: when the world state holds an asset at `a` and a `Pending` request at
`"transfer_" + a`, `RejectTransfer a` succeeds for every caller (it reads no
caller identity); afterwards the asset is the old asset with status `Active` (owner, name,
metaUrl, views, sequence, lastTxid, updatedAt and updatedBy unchanged) and the
request is the old request with status `Rejected`. When the stored request is not
`Pending`, `RejectTransfer a` fails with `InvalidState`. -/
theorem RejectTransfer_contract (ctx : Ctx) (a : String) (s : Store) (req : TransferRequest)
    (h2 : readTransfer s a = some req) :
    (∀ asset, ReadAsset s a = .ok asset → req.Status = "Pending" →
      ((Call.rejectTransfer a).exec ctx s).error = none ∧
      ReadAsset ((Call.rejectTransfer a).exec ctx s).store a = .ok { asset with Status := "Active" } ∧
      GetState ((Call.rejectTransfer a).exec ctx s).store (transferKey a) =
        some (marshalTransferRequest { req with Status := "Rejected" })) ∧
    (req.Status ≠ "Pending" →
      ((Call.rejectTransfer a).exec ctx s).error.map ContractError.kind = some .InvalidState ∧
      ((Call.rejectTransfer a).exec ctx s).store = s) := by
  unfold readTransfer at h2
  obtain ⟨j, hj, hreq⟩ := Option.map_eq_some'.mp h2
  subst hreq
  constructor
  · intro asset h1 h3
    simp only [Call.exec]
    rw [RejectTransfer_of_pending a s j asset hj h3 h1]
    exact ⟨rfl, ReadAsset_after_transfer_writes s a _ _ (ReadAsset_range h1).1
      (ReadAsset_range h1).2, GetState_PutState_self _ _ _⟩
  · intro h3
    simp only [Call.exec]
    rw [RejectTransfer_of_not_pending a s j hj h3]
    exact ⟨rfl, rfl⟩

/-- The pending transfer of `a1` is rejected, and rejecting it again fails. -/
theorem RejectTransfer_contract_witness :
    readTransfer lockedStore "a1" = some pendingRequest ∧
    ReadAsset lockedStore "a1" = .ok lockedAsset ∧
    (RejectTransfer "a1" lockedStore).error = none ∧
    ReadAsset rejectedStore "a1" = .ok { lockedAsset with Status := "Active" } ∧
    GetState rejectedStore (transferKey "a1") =
      some (marshalTransferRequest { pendingRequest with Status := "Rejected" }) ∧
    (RejectTransfer "a1" rejectedStore).error.map ContractError.kind = some .InvalidState :=
  ⟨rfl, rfl,
   ((RejectTransfer_contract bobCtx "a1" lockedStore pendingRequest rfl).1 lockedAsset rfl rfl).1,
   ((RejectTransfer_contract bobCtx "a1" lockedStore pendingRequest rfl).1 lockedAsset rfl rfl).2.1,
   ((RejectTransfer_contract bobCtx "a1" lockedStore pendingRequest rfl).1 lockedAsset rfl rfl).2.2,
   ((RejectTransfer_contract aliceCtx "a1" rejectedStore
      { pendingRequest with Status := "Rejected" } rfl).2 (by decide)).1⟩

/-- C17: in a world state with no record at `id`, `CreateAsset id name metaUrl
views` by a caller `c` succeeds, and `ReadAsset id` then returns the record with
the id, name, metaUrl and views given, `owner = updatedBy = c`, status `Active`,
sequence 1, `lastTxid` the id of the creating transaction and `updatedAt` its
time. -/
theorem CreateAsset_then_ReadAsset (ctx : Ctx) (id name metaUrl : String)
    (views : List String) (s : Store) (h : GetState s id = none) :
    (CreateAsset ctx id name metaUrl views s).error = none ∧
    ReadAsset (CreateAsset ctx id name metaUrl views s).store id =
      .ok { ID := id, Name := name, Owner := ctx.clientID, MetaUrl := metaUrl,
            Status := "Active", Views := views, Sequence := 1, LastTxid := ctx.txID,
            UpdatedAt := ctx.now, UpdatedBy := ctx.clientID } :=
  CreateAsset_reads_back ctx id name metaUrl views s h

/-- The asset `a1` is read back as `alice` created it. -/
theorem CreateAsset_then_ReadAsset_witness :
    GetState [] "a1" = none ∧
    (CreateAsset aliceCtx "a1" "deed" "ipfs://a1" ["public"] []).error = none ∧
    ReadAsset createdStore "a1" = .ok createdAsset :=
  ⟨rfl, CreateAsset_then_ReadAsset aliceCtx "a1" "deed" "ipfs://a1" ["public"] [] rfl⟩

/-- C18: when a record is stored at `id`, `DeleteAsset id` succeeds, removes that
key and leaves every other key as it was, so that `ReadAsset id` then fails with
`NotFound`; when no record is stored at `id`, `DeleteAsset id` fails with
`NotFound`. -/
theorem DeleteAsset_contract (id : String) (s : Store) :
    (GetState s id ≠ none →
      (DeleteAsset id s).error = none ∧
      GetState (DeleteAsset id s).store id = none ∧
      (∀ k, k ≠ id → GetState (DeleteAsset id s).store k = GetState s k) ∧
      ReadAsset (DeleteAsset id s).store id = .error (.assetDoesNotExist id) ∧
      ContractError.kind (.assetDoesNotExist id) = .NotFound) ∧
    (GetState s id = none →
      (DeleteAsset id s).error.map ContractError.kind = some .NotFound ∧
      (DeleteAsset id s).store = s) := by
  constructor
  · intro h
    rw [DeleteAsset_of_present id s h]
    refine ⟨rfl, GetState_DelState_self s id, ?_, ?_, rfl⟩
    · intro k hk
      exact GetState_DelState_ne s id k (Ne.symm hk)
    · show ReadAsset (DelState id s) id = _
      unfold ReadAsset
      rw [GetState_DelState_self]
  · intro h
    rw [DeleteAsset_of_absent id s h]
    exact ⟨rfl, rfl⟩

/-- Deleting `a1` from the world state that holds it, and from the empty one. -/
theorem DeleteAsset_contract_witness :
    GetState createdStore "a1" ≠ none ∧
    (DeleteAsset "a1" createdStore).error = none ∧
    ReadAsset (DeleteAsset "a1" createdStore).store "a1" =
      .error (.assetDoesNotExist "a1") ∧
    GetState [] "a1" = none ∧
    (DeleteAsset "a1" []).error.map ContractError.kind = some .NotFound :=
  ⟨by decide,
   ((DeleteAsset_contract "a1" createdStore).1 (by decide)).1,
   ((DeleteAsset_contract "a1" createdStore).1 (by decide)).2.2.2.1,
   rfl,
   ((DeleteAsset_contract "a1" []).2 rfl).1⟩

/-! ## The life of a transfer request -/

theorem GetState_PutState_ne_none (s : Store) (k k1 : String) (v : JObj)
    (h : GetState s k ≠ none) : GetState (PutState k1 v s) k ≠ none := by
  by_cases hk : k1 = k
  · subst hk
    rw [GetState_PutState_self]
    exact Option.some_ne_none v
  · rw [GetState_PutState_ne s k1 k v hk]
    exact h

/-- C12 as stated fails. The request of `a1` is `Completed`; the new owner `bob`
initiates a transfer of `a1` again, and the record at `transfer_a1` is a `Pending`
request once more. And `DeleteAsset "transfer_a1"` by anyone removes the
completed request. -/
theorem terminal_request_reopened :
    readTransfer completedStore "a1" =
      some { AssetID := "a1", SellerID := "alice", BuyerID := "bob", Status := "Completed" } ∧
    (InitiateTransfer bobCtx "a1" "alice" completedStore).error = none ∧
    readTransfer (InitiateTransfer bobCtx "a1" "alice" completedStore).store "a1" =
      some { AssetID := "a1", SellerID := "bob", BuyerID := "alice", Status := "Pending" } ∧
    (DeleteAsset "transfer_a1" completedStore).error = none ∧
    readTransfer (DeleteAsset "transfer_a1" completedStore).store "a1" = none :=
  ⟨by decide, by decide, by decide, by decide, by decide⟩

/-- C12, amended: when the request stored at `"transfer_" + a` has status
`Completed`, `Rejected` or `Cancelled`, every invocation, by any caller and with
any arguments, other than an `InitiateTransfer` on `a` itself and other than an
invocation whose id argument is the key `"transfer_" + a` itself, leaves the
record at that key as it is, and so the request with the same status. -/
theorem terminal_request_kept (ctx : Ctx) (c : Call) (s : Store) (a : String)
    (req : TransferRequest) (h1 : readTransfer s a = some req)
    (h2 : req.Status = "Completed" ∨ req.Status = "Rejected" ∨ req.Status = "Cancelled")
    (h3 : c.target ≠ transferKey a) (h4 : ∀ b, c ≠ .initiateTransfer a b) :
    GetState (c.exec ctx s).store (transferKey a) = GetState s (transferKey a) ∧
    readTransfer (c.exec ctx s).store a = some req := by
  have hnp : req.Status ≠ "Pending" := by
    rcases h2 with h | h | h <;> rw [h] <;> decide
  have hplain : c.target ≠ transferKey a := h3
  suffices hkey : GetState (c.exec ctx s).store (transferKey a) = GetState s (transferKey a) by
    refine ⟨hkey, ?_⟩
    unfold readTransfer at h1 ⊢
    rw [hkey]
    exact h1
  unfold readTransfer at h1
  obtain ⟨j, hj, hreq⟩ := Option.map_eq_some'.mp h1
  subst hreq
  -- an invocation on another asset does not write the key; one on `a` fails
  have other : ∀ t, c.writes = [t, transferKey t] → c.target = t → t ≠ a →
      GetState (c.exec ctx s).store (transferKey a) = GetState s (transferKey a) := by
    intro t hw ht hta
    apply Call.exec_frame
    rw [hw]
    simp only [List.mem_cons, List.mem_singleton, List.not_mem_nil, or_false, not_or]
    exact ⟨fun h => hplain (ht.trans h.symm), fun h => hta (transferKey_injective h).symm⟩
  cases c with
  | createUser id name role =>
    exact Call.exec_frame ctx _ s _ (by simpa [Call.writes] using Ne.symm hplain)
  | createAsset id name metaUrl views =>
    exact Call.exec_frame ctx _ s _ (by simpa [Call.writes] using Ne.symm hplain)
  | updateAsset id name metaUrl status views =>
    exact Call.exec_frame ctx _ s _ (by simpa [Call.writes] using Ne.symm hplain)
  | deleteAsset id =>
    exact Call.exec_frame ctx _ s _ (by simpa [Call.writes] using Ne.symm hplain)
  | initiateTransfer t buyer =>
    exact other t rfl rfl (fun h => h4 buyer (by rw [h]))
  | completeTransfer t =>
    by_cases hta : t = a
    · subst hta
      show GetState (CompleteTransfer ctx t s).store _ = _
      rw [CompleteTransfer_of_not_pending ctx t s j hj hnp]
      rfl
    · exact other t rfl rfl hta
  | rejectTransfer t =>
    by_cases hta : t = a
    · subst hta
      show GetState (RejectTransfer t s).store _ = _
      rw [RejectTransfer_of_not_pending t s j hj hnp]
      rfl
    · exact other t rfl rfl hta
  | cancelTransfer t =>
    by_cases hta : t = a
    · subst hta
      show GetState (CancelTransfer ctx t s).store _ = _
      by_cases hs : (unmarshalTransferRequest j).SellerID = ctx.clientID
      · rw [CancelTransfer_of_not_pending ctx t s j hj hs hnp]
        rfl
      · rw [CancelTransfer_of_not_seller ctx t s j hj hs]
        rfl
    · exact other t rfl rfl hta

/-- The completed request of `a1` survives a second `CompleteTransfer` on `a1`
and the creation by `bob` of an asset under the transfer-shaped id
`transfer_zz`. -/
theorem terminal_request_kept_witness :
    readTransfer completedStore "a1" =
      some { pendingRequest with Status := "Completed" } ∧
    (Call.completeTransfer "a1").target ≠ transferKey "a1" ∧
    readTransfer ((Call.completeTransfer "a1").exec aliceCtx completedStore).store "a1" =
      some { pendingRequest with Status := "Completed" } ∧
    (Call.createAsset "transfer_zz" "bond" "ipfs://b" ["public"]).target ≠ transferKey "a1" ∧
    ((Call.createAsset "transfer_zz" "bond" "ipfs://b" ["public"]).exec bobCtx
      completedStore).error = none ∧
    readTransfer ((Call.createAsset "transfer_zz" "bond" "ipfs://b" ["public"]).exec bobCtx
      completedStore).store "a1" = some { pendingRequest with Status := "Completed" } :=
  ⟨rfl, by decide,
   (terminal_request_kept aliceCtx (.completeTransfer "a1") completedStore "a1"
      { pendingRequest with Status := "Completed" } rfl (Or.inl rfl) (by decide)
      (fun _ h => Call.noConfusion h)).2,
   by decide, by decide,
   (terminal_request_kept bobCtx (.createAsset "transfer_zz" "bond" "ipfs://b" ["public"])
      completedStore "a1" { pendingRequest with Status := "Completed" } rfl (Or.inl rfl)
      (by decide) (fun _ h => Call.noConfusion h)).2⟩

/-- Apart from `DeleteAsset` on the key itself, no invocation removes the record
stored under a transfer key. -/
theorem request_key_kept (ctx : Ctx) (c : Call) (s : Store) (a : String)
    (req : TransferRequest) (h1 : readTransfer s a = some req)
    (h2 : c ≠ .deleteAsset (transferKey a)) :
    ∃ j, GetState (c.exec ctx s).store (transferKey a) = some j := by
  apply Option.ne_none_iff_exists'.mp
  have hs : GetState s (transferKey a) ≠ none := by
    unfold readTransfer at h1
    intro h
    rw [h] at h1
    cases h1
  rcases Call.exec_cases ctx c s with ⟨e, he⟩ | ⟨v, ev, he⟩ | ⟨id, ev, hc, he⟩ | ⟨v, w, ev, _, he⟩
  · rw [he]
    exact hs
  · rw [he]
    exact GetState_PutState_ne_none s _ _ v hs
  · rw [he]
    have hid : id ≠ transferKey a := fun h => h2 (by rw [hc, h])
    show GetState (DelState id s) (transferKey a) ≠ none
    rw [GetState_DelState_ne s id _ hid]
    exact hs
  · rw [he]
    exact GetState_PutState_ne_none _ _ _ w (GetState_PutState_ne_none s _ _ v hs)

/-- C13 on the code: `DeleteAsset` tests only that some record is stored under
its argument and reads no caller identity. The pending request of `a1` is stored at
`transfer_a1`; `DeleteAsset "transfer_a1"` invoked by `bob`, who owns nothing
there (`UpdateAsset` and `InitiateTransfer` by `bob` on the same key are refused
with the owner error), succeeds, sets the event `AssetDeleted` and removes the
request. -/
theorem request_deleted_by_DeleteAsset :
    readTransfer lockedStore "a1" = some pendingRequest ∧
    AssetExists lockedStore "transfer_a1" = true ∧
    (UpdateAsset bobCtx "transfer_a1" "x" "y" "Active" [] lockedStore).error =
      some .onlyOwnerCanUpdate ∧
    (InitiateTransfer bobCtx "transfer_a1" "carol" lockedStore).error =
      some .onlyOwnerCanInitiate ∧
    ((Call.deleteAsset "transfer_a1").exec bobCtx lockedStore).error = none ∧
    ((Call.deleteAsset "transfer_a1").exec bobCtx lockedStore).event =
      some ⟨"AssetDeleted", .raw "transfer_a1"⟩ ∧
    GetState ((Call.deleteAsset "transfer_a1").exec bobCtx lockedStore).store
      (transferKey "a1") = none ∧
    readTransfer ((Call.deleteAsset "transfer_a1").exec bobCtx lockedStore).store "a1" =
      none :=
  ⟨by decide, by decide, by decide, by decide, by decide, by decide, by decide, by decide⟩

/-! ## Deletion and the transfer protocol -/

/-- C14 on the code: `DeleteAsset` reads no caller identity. The asset `a1` is
owned by `alice`; `DeleteAsset "a1"` invoked by `bob` succeeds, sets the event
`AssetDeleted` and removes the asset from the world state. -/
theorem DeleteAsset_by_other_succeeds :
    ReadAsset createdStore "a1" = .ok createdAsset ∧ createdAsset.Owner = "alice" ∧
    bobCtx.clientID ≠ createdAsset.Owner ∧
    ((Call.deleteAsset "a1").exec bobCtx createdStore).error = none ∧
    ((Call.deleteAsset "a1").exec bobCtx createdStore).event =
      some ⟨"AssetDeleted", .raw "a1"⟩ ∧
    GetState ((Call.deleteAsset "a1").exec bobCtx createdStore).store "a1" = none :=
  ⟨rfl, rfl, by decide, by decide, by decide, by decide⟩

/-- C19 on the code: after `alice` created `a1`, initiated its transfer to `bob`
and deleted `a1` (three successful invocations from the empty world state), the
request at `transfer_a1` is `Pending` and no record is stored at `a1`. The
`Pending` check then passes and the ignored `ReadAsset` error leaves a nil pointer
that `CompleteTransfer`, `RejectTransfer` and `CancelTransfer` dereference. -/
theorem pending_request_without_asset :
    Reachable danglingStore ∧
    readTransfer danglingStore "a1" = some pendingRequest ∧
    pendingRequest.Status = "Pending" ∧
    GetState danglingStore "a1" = none ∧
    (CompleteTransfer bobCtx "a1" danglingStore).error = some .nilDereference ∧
    (RejectTransfer "a1" danglingStore).error = some .nilDereference ∧
    (CancelTransfer aliceCtx "a1" danglingStore).error = some .nilDereference :=
  ⟨ReachableBy.runCalls danglingCalls [] ReachableBy.empty (fun _ _ => trivial),
   by decide, rfl, by decide, by decide, by decide, by decide⟩

/-- C20 as stated fails: `bob` holds an asset under the id `transfer_a1` and
`alice` one under `a1`. The successful `InitiateTransfer "a1"` of `alice` writes
her request at the key `transfer_a1` and so replaces the asset record of `bob`,
although `a1` and `transfer_a1` are different ids. -/
theorem asset_under_transfer_key_replaced :
    "a1" ≠ "transfer_a1" ∧
    (ReadAsset shadowStore "transfer_a1").toOption.map Asset.Owner = some "bob" ∧
    (InitiateTransfer aliceCtx "a1" "bob" shadowStore).error = none ∧
    GetState (InitiateTransfer aliceCtx "a1" "bob" shadowStore).store "transfer_a1" =
      some (marshalTransferRequest pendingRequest) ∧
    GetState (InitiateTransfer aliceCtx "a1" "bob" shadowStore).store "transfer_a1" ≠
      GetState shadowStore "transfer_a1" :=
  ⟨by decide, by decide, by decide, by decide, by decide⟩

/-- C20, amended: for asset ids `a` and `b` with `b` different from `a` and from
`"transfer_" + a`, each of `InitiateTransfer`, `CompleteTransfer`,
`RejectTransfer` and `CancelTransfer` on `a`, successful or not, leaves the record
stored under `b` as it was, and with it the asset that `ReadAsset b` returns. -/
theorem transfer_leaves_other_assets (ctx : Ctx) (a b buyer : String) (s : Store)
    (hab : a ≠ b) (hb : b ≠ transferKey a) :
    (GetState (InitiateTransfer ctx a buyer s).store b = GetState s b ∧
      ReadAsset (InitiateTransfer ctx a buyer s).store b = ReadAsset s b) ∧
    (GetState (CompleteTransfer ctx a s).store b = GetState s b ∧
      ReadAsset (CompleteTransfer ctx a s).store b = ReadAsset s b) ∧
    (GetState (RejectTransfer a s).store b = GetState s b ∧
      ReadAsset (RejectTransfer a s).store b = ReadAsset s b) ∧
    (GetState (CancelTransfer ctx a s).store b = GetState s b ∧
      ReadAsset (CancelTransfer ctx a s).store b = ReadAsset s b) := by
  have hw : b ∉ [a, transferKey a] := by
    simp only [List.mem_cons, List.mem_singleton, List.not_mem_nil, or_false, not_or]
    exact ⟨Ne.symm hab, hb⟩
  have read : ∀ s1 : Store, GetState s1 b = GetState s b → ReadAsset s1 b = ReadAsset s b := by
    intro s1 h
    unfold ReadAsset
    rw [h]
  have h1 := Call.exec_frame ctx (.initiateTransfer a buyer) s b hw
  have h2 := Call.exec_frame ctx (.completeTransfer a) s b hw
  have h3 := Call.exec_frame ctx (.rejectTransfer a) s b hw
  have h4 := Call.exec_frame ctx (.cancelTransfer a) s b hw
  exact ⟨⟨h1, read _ h1⟩, ⟨h2, read _ h2⟩, ⟨h3, read _ h3⟩, ⟨h4, read _ h4⟩⟩

/-- The transfer of `a1` leaves the asset `a2` of the mixed world state alone. -/
theorem transfer_leaves_other_assets_witness :
    "a1" ≠ "a2" ∧ "a2" ≠ transferKey "a1" ∧
    (ReadAsset mixedStore "a2").toOption.map Asset.Name = some "bond" ∧
    ReadAsset (CompleteTransfer bobCtx "a1" mixedStore).store "a2" =
      ReadAsset mixedStore "a2" :=
  ⟨by decide, by decide, by decide,
   (transfer_leaves_other_assets bobCtx "a1" "a2" "bob" mixedStore (by decide)
      (by decide)).2.1.2⟩

/-! ## Owners -/

theorem unmarshalAsset_owner {o : JObj} {y : Asset} (h : unmarshalAsset o = some y) :
    decodeString (o.field "owner") = some y.Owner := by
  simp only [unmarshalAsset, Option.bind_eq_bind, Option.bind_eq_some, Option.pure_def,
    Option.some.injEq] at h
  obtain ⟨_, _, _, _, ow, how, _, _, _, _, _, _, _, _, _, _, _, _, _, _, rfl⟩ := h
  exact how

theorem owner_of_marshalAsset {x y : Asset} (h : unmarshalAsset (marshalAsset x) = some y) :
    y.Owner = x.Owner := by
  have h1 := unmarshalAsset_owner h
  simpa [marshalAsset, JObj.field, decodeString] using h1.symm

theorem Call.ownerSafe_spec {ctx : Ctx} {c : Call} (h : c.ownerSafe ctx = true) :
    ctx.clientID ≠ "" ∧ isTransferKey c.target = false ∧
    (∀ a b, c = .initiateTransfer a b → b ≠ "") := by
  cases c <;> simp_all [Call.ownerSafe, Call.target]

/-- An asset read under a key that is no transfer key has a non-empty owner. -/
theorem owner_of_AssetsHaveOwner {s : Store} {id : String} {asset : Asset}
    (h : AssetsHaveOwner s) (hid : isTransferKey id = false)
    (hr : ReadAsset s id = .ok asset) : asset.Owner ≠ "" := by
  obtain ⟨j, hj, hy⟩ := ReadAsset_ok_iff.mp hr
  obtain ⟨a0, ha0, hown⟩ := h id j hj hid
  subst ha0
  rw [owner_of_marshalAsset hy]
  exact hown

theorem owners_PutState {s : Store} {k : String} {x : Asset}
    (hk : isTransferKey k = false) (hx : x.Owner ≠ "")
    (h1 : RequestsHaveBuyer s) (h2 : AssetsHaveOwner s) :
    RequestsHaveBuyer (PutState k (marshalAsset x) s) ∧
    AssetsHaveOwner (PutState k (marshalAsset x) s) := by
  constructor
  · intro t j hj
    rw [GetState_PutState_ne s k _ _ (ne_transferKey_of_plain hk t)] at hj
    exact h1 t j hj
  · intro k1 j hj hk1
    by_cases hkk : k = k1
    · subst hkk
      rw [GetState_PutState_self] at hj
      injection hj with hj
      exact ⟨x, hj.symm, hx⟩
    · rw [GetState_PutState_ne s k k1 _ hkk] at hj
      exact h2 k1 j hj hk1

theorem owners_DelState {s : Store} {k : String} (hk : isTransferKey k = false)
    (h1 : RequestsHaveBuyer s) (h2 : AssetsHaveOwner s) :
    RequestsHaveBuyer (DelState k s) ∧ AssetsHaveOwner (DelState k s) := by
  constructor
  · intro t j hj
    rw [GetState_DelState_ne s k _ (ne_transferKey_of_plain hk t)] at hj
    exact h1 t j hj
  · intro k1 j hj hk1
    by_cases hkk : k = k1
    · subst hkk
      rw [GetState_DelState_self] at hj
      cases hj
    · rw [GetState_DelState_ne s k k1 hkk] at hj
      exact h2 k1 j hj hk1

theorem owners_transfer_writes {s : Store} {a : String} {x : Asset} {r : TransferRequest}
    (ha : isTransferKey a = false) (hx : x.Owner ≠ "") (hr : r.BuyerID ≠ "")
    (h1 : RequestsHaveBuyer s) (h2 : AssetsHaveOwner s) :
    RequestsHaveBuyer
      (PutState (transferKey a) (marshalTransferRequest r) (PutState a (marshalAsset x) s)) ∧
    AssetsHaveOwner
      (PutState (transferKey a) (marshalTransferRequest r) (PutState a (marshalAsset x) s)) := by
  obtain ⟨g1, g2⟩ := owners_PutState ha hx h1 h2
  constructor
  · intro t j hj
    by_cases ht : transferKey a = transferKey t
    · rw [← ht, GetState_PutState_self] at hj
      injection hj with hj
      exact ⟨r, hj.symm, hr⟩
    · rw [GetState_PutState_ne _ _ _ _ ht] at hj
      exact g1 t j hj
  · intro k1 j hj hk1
    have hne : transferKey a ≠ k1 := fun h => by
      rw [← h, isTransferKey_transferKey] at hk1
      cases hk1
    rw [GetState_PutState_ne _ _ _ _ hne] at hj
    exact g2 k1 j hj hk1

/-- An owner-safe invocation keeps both invariants. -/
theorem owners_step (ctx : Ctx) (c : Call) (s : Store) (hc : c.ownerSafe ctx = true)
    (h1 : RequestsHaveBuyer s) (h2 : AssetsHaveOwner s) :
    RequestsHaveBuyer (c.apply ctx s) ∧ AssetsHaveOwner (c.apply ctx s) := by
  obtain ⟨hcaller, hk, hbuyer⟩ := Call.ownerSafe_spec hc
  -- the request read by a resolving operation is a stored request with a buyer
  have request : ∀ a j, GetState s (transferKey a) = some j →
      (unmarshalTransferRequest j).BuyerID ≠ "" := by
    intro a j hj
    obtain ⟨r, hr, hb⟩ := h1 a j hj
    rw [hr, unmarshalTransferRequest_marshal]
    exact hb
  cases c with
  | createUser id name role => simp [Call.ownerSafe] at hc
  | createAsset id name metaUrl views =>
    by_cases hg : GetState s id = none
    · rw [Call.apply_eq_of_ok ctx (.createAsset id name metaUrl views)
        (CreateAsset_of_absent ctx id name metaUrl views s hg)]
      exact owners_PutState hk hcaller h1 h2
    · rw [Call.apply_eq_of_fail ctx (.createAsset id name metaUrl views)
        (CreateAsset_of_present ctx id name metaUrl views s hg)]
      exact ⟨h1, h2⟩
  | updateAsset id name metaUrl status views =>
    cases hr : ReadAsset s id with
    | error e =>
      rw [Call.apply_eq_of_fail ctx (.updateAsset id name metaUrl status views)
        (UpdateAsset_of_error ctx id name metaUrl status views s e hr)]
      exact ⟨h1, h2⟩
    | ok asset =>
      by_cases ho : asset.Owner = ctx.clientID
      · by_cases hl : asset.Status = "Locked"
        · rw [Call.apply_eq_of_fail ctx (.updateAsset id name metaUrl status views)
            (UpdateAsset_of_locked ctx id name metaUrl status views s asset hr ho hl)]
          exact ⟨h1, h2⟩
        · rw [Call.apply_eq_of_ok ctx (.updateAsset id name metaUrl status views)
            (UpdateAsset_of_owner ctx id name metaUrl status views s asset hr ho hl)]
          exact owners_PutState hk (ho ▸ hcaller) h1 h2
      · rw [Call.apply_eq_of_fail ctx (.updateAsset id name metaUrl status views)
          (UpdateAsset_of_not_owner ctx id name metaUrl status views s asset hr ho)]
        exact ⟨h1, h2⟩
  | deleteAsset id =>
    by_cases hg : GetState s id = none
    · rw [Call.apply_eq_of_fail ctx (.deleteAsset id) (DeleteAsset_of_absent id s hg)]
      exact ⟨h1, h2⟩
    · rw [Call.apply_eq_of_ok ctx (.deleteAsset id) (DeleteAsset_of_present id s hg)]
      exact owners_DelState hk h1 h2
  | initiateTransfer a buyer =>
    cases hr : ReadAsset s a with
    | error e =>
      rw [Call.apply_eq_of_fail ctx (.initiateTransfer a buyer)
        (InitiateTransfer_of_error ctx a buyer s e hr)]
      exact ⟨h1, h2⟩
    | ok asset =>
      by_cases ho : asset.Owner = ctx.clientID
      · by_cases hl : asset.Status = "Locked"
        · rw [Call.apply_eq_of_fail ctx (.initiateTransfer a buyer)
            (InitiateTransfer_of_locked ctx a buyer s asset hr ho hl)]
          exact ⟨h1, h2⟩
        · rw [Call.apply_eq_of_ok ctx (.initiateTransfer a buyer)
            (InitiateTransfer_of_owner ctx a buyer s asset hr ho hl)]
          exact owners_transfer_writes hk (ho ▸ hcaller) (hbuyer a buyer rfl) h1 h2
      · rw [Call.apply_eq_of_fail ctx (.initiateTransfer a buyer)
          (InitiateTransfer_of_not_owner ctx a buyer s asset hr ho)]
        exact ⟨h1, h2⟩
  | completeTransfer a =>
    cases hj : GetState s (transferKey a) with
    | none =>
      rw [Call.apply_eq_of_fail ctx (.completeTransfer a)
        (CompleteTransfer_of_absent ctx a s hj)]
      exact ⟨h1, h2⟩
    | some j =>
      by_cases hp : (unmarshalTransferRequest j).Status = "Pending"
      · cases hr : ReadAsset s a with
        | error e =>
          rw [Call.apply_eq_of_fail ctx (.completeTransfer a)
            (CompleteTransfer_of_no_asset ctx a s j e hj hp hr)]
          exact ⟨h1, h2⟩
        | ok asset =>
          rw [Call.apply_eq_of_ok ctx (.completeTransfer a)
            (CompleteTransfer_of_pending ctx a s j asset hj hp hr)]
          exact owners_transfer_writes hk (request a j hj) hcaller h1 h2
      · rw [Call.apply_eq_of_fail ctx (.completeTransfer a)
          (CompleteTransfer_of_not_pending ctx a s j hj hp)]
        exact ⟨h1, h2⟩
  | rejectTransfer a =>
    cases hj : GetState s (transferKey a) with
    | none =>
      rw [Call.apply_eq_of_fail ctx (.rejectTransfer a) (RejectTransfer_of_absent a s hj)]
      exact ⟨h1, h2⟩
    | some j =>
      by_cases hp : (unmarshalTransferRequest j).Status = "Pending"
      · cases hr : ReadAsset s a with
        | error e =>
          rw [Call.apply_eq_of_fail ctx (.rejectTransfer a)
            (RejectTransfer_of_no_asset a s j e hj hp hr)]
          exact ⟨h1, h2⟩
        | ok asset =>
          rw [Call.apply_eq_of_ok ctx (.rejectTransfer a)
            (RejectTransfer_of_pending a s j asset hj hp hr)]
          have hown : asset.Owner ≠ "" := owner_of_AssetsHaveOwner h2 hk hr
          exact owners_transfer_writes hk hown (request a j hj) h1 h2
      · rw [Call.apply_eq_of_fail ctx (.rejectTransfer a)
          (RejectTransfer_of_not_pending a s j hj hp)]
        exact ⟨h1, h2⟩
  | cancelTransfer a =>
    cases hj : GetState s (transferKey a) with
    | none =>
      rw [Call.apply_eq_of_fail ctx (.cancelTransfer a)
        (CancelTransfer_of_absent ctx a s hj)]
      exact ⟨h1, h2⟩
    | some j =>
      by_cases hs : (unmarshalTransferRequest j).SellerID = ctx.clientID
      · by_cases hp : (unmarshalTransferRequest j).Status = "Pending"
        · cases hr : ReadAsset s a with
          | error e =>
            rw [Call.apply_eq_of_fail ctx (.cancelTransfer a)
              (CancelTransfer_of_no_asset ctx a s j e hj hs hp hr)]
            exact ⟨h1, h2⟩
          | ok asset =>
            rw [Call.apply_eq_of_ok ctx (.cancelTransfer a)
              (CancelTransfer_of_pending ctx a s j asset hj hs hp hr)]
            have hown : asset.Owner ≠ "" := owner_of_AssetsHaveOwner h2 hk hr
            exact owners_transfer_writes hk hown (request a j hj) h1 h2
        · rw [Call.apply_eq_of_fail ctx (.cancelTransfer a)
            (CancelTransfer_of_not_pending ctx a s j hj hs hp)]
          exact ⟨h1, h2⟩
      · rw [Call.apply_eq_of_fail ctx (.cancelTransfer a)
          (CancelTransfer_of_not_seller ctx a s j hj hs)]
        exact ⟨h1, h2⟩

/-- Both owner invariants hold in every state reachable by owner-safe
invocations. -/
theorem owners_of_reachable {s : Store}
    (h : ReachableBy (fun ctx c => c.ownerSafe ctx = true) s) :
    RequestsHaveBuyer s ∧ AssetsHaveOwner s := by
  induction h with
  | empty =>
    constructor
    · intro t j hj
      cases hj
    · intro k j hj
      cases hj
  | step ctx c _ hc ih => exact owners_step ctx c _ hc ih.1 ih.2

/-- C11 as stated fails. All callers have non-empty identities; `alice` creates
`a1` and initiates its transfer with the empty buyer id, `bob` completes it, and
the stored asset `a1` has the empty owner. Besides, the record of the user `u1`
and the request at `transfer_a1` are read by `ReadAsset` as assets with an empty
owner. -/
theorem asset_with_empty_owner :
    (ReachableBy (fun ctx _ => ctx.clientID ≠ "") (runCalls emptyBuyerCalls []) ∧
      (ReadAsset (runCalls emptyBuyerCalls []) "a1").toOption.map Asset.Owner = some "") ∧
    (ReachableBy (fun ctx _ => ctx.clientID ≠ "") (runCalls userCalls []) ∧
      (ReadAsset (runCalls userCalls []) "u1").toOption.map Asset.Owner = some "") ∧
    (ReachableBy (fun ctx _ => ctx.clientID ≠ "") (runCalls lockCalls []) ∧
      (ReadAsset (runCalls lockCalls []) "transfer_a1").toOption.map Asset.Owner = some "") :=
  ⟨⟨ReachableBy.runCalls emptyBuyerCalls [] ReachableBy.empty (by decide), by decide⟩,
   ⟨ReachableBy.runCalls userCalls [] ReachableBy.empty (by decide), by decide⟩,
   ⟨ReachableBy.runCalls lockCalls [] ReachableBy.empty (by decide), by decide⟩⟩

/-- C11, amended: in every world state reachable from the empty one by
invocations of `CreateAsset`, `UpdateAsset`, `DeleteAsset` and the four transfer
operations (no `CreateUser`), made by callers with non-empty identities, with an id
argument that does not begin with `transfer_` and, for `InitiateTransfer`, a
non-empty buyer id, every asset stored under a key that does not begin with
`transfer_` has a non-empty owner. -/
theorem stored_asset_has_owner (s : Store) (id : String) (asset : Asset)
    (h : ReachableBy (fun ctx c => c.ownerSafe ctx = true) s)
    (hid : isTransferKey id = false) (h1 : ReadAsset s id = .ok asset) :
    asset.Owner ≠ "" :=
  owner_of_AssetsHaveOwner (owners_of_reachable h).2 hid h1

/-- After the happy path of `a1` the asset is owned by `bob`. -/
theorem stored_asset_has_owner_witness :
    ReachableBy (fun ctx c => c.ownerSafe ctx = true) (runCalls happyCalls []) ∧
    isTransferKey "a1" = false ∧
    ReadAsset (runCalls happyCalls []) "a1" = .ok transferredAsset ∧
    transferredAsset.Owner ≠ "" :=
  ⟨ReachableBy.runCalls happyCalls [] ReachableBy.empty (by decide), rfl, rfl,
   stored_asset_has_owner (runCalls happyCalls []) "a1" transferredAsset
     (ReachableBy.runCalls happyCalls [] ReachableBy.empty (by decide)) rfl rfl⟩

end Ams
